import Mathlib

/-!
# GoMonzo2YNAB: the webhook adapter of `monzo2ynab.go`

A shallow embedding of `init` and `handler` from `monzo2ynab.go`.

* Go strings are Lean strings; only equality, emptiness (`len(s) > 0`) and
  concatenation are used by the program.
* `float64` is IEEE-754 binary64, given by its three bit fields, with the
  round-to-nearest-even product the Go expression `raw.Data.Amount * 10` computes; the
  product with 10 is proved correctly rounded against exact magnitudes.
* Effects (log lines, Sentry captures, the outbound HTTP exchange) are recorded in
  an explicit trace; a run ends by returning a response or by panicking.
* The behaviour of the Go standard library at the points where the program calls
  into it on data (`json.Unmarshal`, `json.Marshal`, `fmt.Sprintf` with the
  configured format, `http.NewRequest`, `http.Client.Do`) is a parameter `Lib`.
-/

namespace Monzo2YNAB

/-! ## float64 -/

/-- An IEEE-754 binary64 value by its bit fields: sign, biased exponent (11 bits) and
fraction (52 bits). -/
structure Float64 where
  sign : Bool
  exp : Nat
  frac : Nat
  deriving DecidableEq, Repr

namespace Float64

/-- Not-a-number: exponent field all ones, fraction non-zero. -/
def isNaN (a : Float64) : Bool := a.exp == 2047 && a.frac != 0

/-- Plus or minus infinity: exponent field all ones, fraction zero. -/
def isInf (a : Float64) : Bool := a.exp == 2047 && a.frac == 0

/-- Plus or minus zero. -/
def isZero (a : Float64) : Bool := a.exp == 0 && a.frac == 0

/-- The canonical quiet NaN. Sign and payload of a NaN are not tracked: every NaN
result is this one. -/
def nan : Float64 := ⟨false, 2047, 2 ^ 51⟩

/-- Signed infinity. -/
def inf (s : Bool) : Float64 := ⟨s, 2047, 0⟩

/-- Integer significand of a finite value: the value is
`significand * 2 ^ (scale - 1074)`. -/
def significand (a : Float64) : Nat := if a.exp = 0 then a.frac else 2 ^ 52 + a.frac

/-- Exponent of the unit in the last place above the subnormal one. -/
def scale (a : Float64) : Nat := a.exp - 1

/-- Position of the leading one bit, by halving at most `fuel` times. -/
def log2Fuel : Nat → Nat → Nat
  | 0, _ => 0
  | fuel + 1, n => if n < 2 then 0 else log2Fuel fuel (n / 2) + 1

/-- Floor of the binary logarithm (0 at 0). -/
def ilog2 (n : Nat) : Nat := log2Fuel n n

/-- The quotient `M / 2 ^ d` rounded to the nearest integer, ties to even. -/
def roundShift (M d : Nat) : Nat :=
  let m0 := M / 2 ^ d
  let r := M % 2 ^ d
  let h := 2 ^ (d - 1)
  if r > h ∨ (r = h ∧ m0 % 2 = 1) then m0 + 1 else m0

/-- The binary64 value with sign `s` and magnitude `m * 2 ^ Q / 2 ^ 2148`, for a
significand `m ≤ 2 ^ 53` that is below `2 ^ 52` only at the subnormal scale
`Q = 1074`; a magnitude past the largest finite value becomes infinity. -/
def pack (s : Bool) (m Q : Nat) : Float64 :=
  let Q1 := if m = 2 ^ 53 then Q + 1 else Q
  let m1 := if m = 2 ^ 53 then 2 ^ 52 else m
  if m1 < 2 ^ 52 then ⟨s, 0, m1⟩
  else if Q1 - 1073 ≥ 2047 then inf s
  else ⟨s, Q1 - 1073, m1 - 2 ^ 52⟩

/-- Round the magnitude `M * 2 ^ K / 2 ^ 2148` to the nearest binary64 value, ties
to even, overflowing to infinity. -/
def roundPack (s : Bool) (M K : Nat) : Float64 :=
  if M = 0 then ⟨s, 0, 0⟩
  else
    let Q := max (ilog2 M + K - 52) 1074
    let m := if Q ≤ K then M * 2 ^ (K - Q) else roundShift M (Q - K)
    pack s m Q

/-- The float64 product `a * b`: NaN from a NaN operand or from infinity times zero,
a signed infinity from an infinite operand, and otherwise the exact product of the two
values rounded to nearest, ties to even. -/
def mul (a b : Float64) : Float64 :=
  if a.isNaN || b.isNaN then nan
  else if a.isInf || b.isInf then
    if a.isZero || b.isZero then nan else inf (xor a.sign b.sign)
  else roundPack (xor a.sign b.sign) (a.significand * b.significand) (a.scale + b.scale)

/-- Conversion of a natural number (an untyped integer constant, or the integer a
decimal literal denotes) to float64. -/
def ofNat (n : Nat) : Float64 := roundPack false n 2148

/-- Conversion of an integer to float64. -/
def ofInt (i : Int) : Float64 := roundPack (decide (i < 0)) i.natAbs 2148

/-- The integer a finite float64 denotes, if it denotes one. -/
def toInt (a : Float64) : Option Int :=
  if a.exp ≥ 2047 then none
  else if a.scale ≥ 1074 then
    let n : Int := ((a.significand * 2 ^ (a.scale - 1074) : Nat) : Int)
    some (if a.sign then -n else n)
  else if a.significand % 2 ^ (1074 - a.scale) = 0 then
    let n : Int := ((a.significand / 2 ^ (1074 - a.scale) : Nat) : Int)
    some (if a.sign then -n else n)
  else none

/-- Finite, with the fraction within its 52 bits. -/
def isFinite (a : Float64) : Bool := decide (a.exp < 2047) && decide (a.frac < 2 ^ 52)

/-- Magnitude of a finite value, counted in units of the least subnormal `2 ^ (-1074)`:
every finite float64 is a whole number of these units. -/
def mag (a : Float64) : Nat := a.significand * 2 ^ a.scale

/-- Distance between two magnitudes. -/
def gap (x y : Nat) : Nat := (x - y) + (y - x)

/-- The exact value of a finite float64 as a signed number of units of `2 ^ (-1074)`;
nothing for an infinity or a NaN. -/
def units (a : Float64) : Option Int :=
  if a.exp < 2047 then some (if a.sign then -(a.mag : Int) else (a.mag : Int)) else none

end Float64

/-! ## Data model -/

/-- A Go `error` value, identified by its message. -/
structure Error where
  msg : String
  deriving DecidableEq, Repr

/-- The Go call `errors.New(msg)`. -/
def errorsNew (msg : String) : Error := ⟨msg⟩

/-- The Go builtin `len` on a string: its length in bytes. -/
def len (s : String) : Nat := s.utf8ByteSize

/-- The five package-level variables read from the environment (`os.Getenv` yields the
empty string for an unset variable). -/
structure Config where
  MonzoAccountID : String
  YnabAccountID : String
  YnabAPIKey : String
  YnabBaseURL : String
  YnabBudgetID : String
  deriving DecidableEq, Repr

/-- The anonymous struct type of `Counterparty` and `Merchant`. -/
structure Named where
  Name : String
  deriving DecidableEq, Repr

/-- The anonymous struct type of `MonzoTransaction.Data`. -/
structure MonzoData where
  AccountID : String
  Amount : Float64
  Created : String
  Description : String
  Counterparty : Named
  TransactionID : String
  Merchant : Named
  deriving DecidableEq, Repr

/-- The Go struct `MonzoTransaction`. -/
structure MonzoTransaction where
  TransactionType : String
  Data : MonzoData
  deriving DecidableEq, Repr

/-- The Go struct `YNABTransaction`. -/
structure YNABTransaction where
  AccountID : String
  Date : String
  Amount : Float64
  Payee : String
  Cleared : String
  ImportID : String
  deriving DecidableEq, Repr

/-- The Go struct `YNABTransactionWrapper`: the envelope whose single field, tagged
`transaction`, holds the outbound transaction. -/
structure YNABTransactionWrapper where
  YNABTransaction : YNABTransaction
  deriving DecidableEq, Repr

/-- The fields of `events.APIGatewayProxyRequest` the handler reads. -/
structure APIGatewayProxyRequest where
  RequestID : String
  Body : String
  deriving DecidableEq, Repr

/-- The fields of `events.APIGatewayProxyResponse` the handler sets; `Body` is the
empty string where the composite literal leaves it out. -/
structure APIGatewayProxyResponse where
  StatusCode : Int
  Body : String := ""
  deriving DecidableEq, Repr

/-- An `http.Header` restricted to single-valued keys, in insertion order. -/
abbrev Header := List (String × String)

/-- The method `Header.Set` for a key already in canonical form (as `Authorization` and
`Content-Type` are): replaces the values stored under the key. -/
def Header.Set (h : Header) (key value : String) : Header :=
  h.filter (fun p => p.1 != key) ++ [(key, value)]

/-- The method `Header.Get`. -/
def Header.Get (h : Header) (key : String) : Option String :=
  (h.find? (fun p => p.1 == key)).map Prod.snd

/-- The fields of `http.Request` the handler determines. -/
structure Request where
  Method : String
  URL : String
  Header : Header
  Body : String
  deriving DecidableEq, Repr

/-- The statement `req.Header.Set(key, value)`. -/
def Request.headerSet (req : Request) (key value : String) : Request :=
  { req with Header := Header.Set req.Header key value }

/-- The fields of `http.Response` the handler reads: the status line and the bytes
`ioutil.ReadAll(resp.Body)` yields (its error is discarded by the handler). -/
structure Response where
  Status : String
  Body : String
  deriving DecidableEq, Repr

/-- The field of `http.Client` the handler sets, in seconds. -/
structure Client where
  Timeout : Nat
  deriving DecidableEq, Repr

/-- Outcome of a library call that returns `(value, error)`. -/
inductive Result (α : Type) where
  | ok (a : α)
  | error (e : Error)
  deriving DecidableEq, Repr

/-- Behaviour of the Go libraries at the calls whose result depends on run-time data. -/
structure Lib where
  /-- Decoding `json.Unmarshal([]byte(body), &raw)` into a zero `MonzoTransaction`. -/
  jsonUnmarshal : String → Result MonzoTransaction
  /-- Encoding `json.Marshal(trans)`. -/
  jsonMarshal : YNABTransactionWrapper → Result String
  /-- Formatting `fmt.Sprintf(format, arg)` with one string operand. -/
  sprintf : String → String → String
  /-- The error of `http.NewRequest(method, url, body)`, if any. -/
  newRequestError : String → String → Option Error
  /-- The call `client.Do(req)`, the client timeout included. -/
  clientDo : Client → Request → Result Response
  /-- Whether the Lambda runtime behind `lambda.Start` recovers a panic of the handler
  and goes on serving, or lets it propagate. -/
  lambdaRecovers : Bool

/-- The call `http.NewRequest(method, url, bytes.NewBuffer(body))`: a request with the
given method, URL and body and an empty header, or a nil request and an error. -/
def newRequest (lib : Lib) (method url body : String) : Result Request :=
  match lib.newRequestError method url with
  | some e => .error e
  | none => .ok { Method := method, URL := url, Header := [], Body := body }

/-! ## Traces -/

/-- The lines written through the `log` package, by call site. -/
inductive LogLine where
  | environmentalVars
  | envVar (x : String)
  | lambdaRequest (id : String)
  | requestBody (body : String)
  | monzoTransaction (raw : MonzoTransaction)
  | accountMatches (transactionAccount monzoAccount : String)
  | ynabTransaction (trans : YNABTransactionWrapper)
  | ynabPostURL (url : String)
  | postStatus (post : String)
  | panicLine (s : String)
  deriving DecidableEq, Repr

/-- Observable effects of the program. -/
inductive Event where
  /-- The call `raven.SetDSN` (the DSN literal is not recorded). -/
  | setDSN
  | log (line : LogLine)
  /-- The call `raven.CaptureErrorAndWait(err, tags)`; `none` is a nil tag map. -/
  | capture (err : Error) (tags : Option (List (String × String)))
  /-- The call `client.Do(req)` and what it came back with. -/
  | clientDo (client : Client) (req : Request) (result : Result Response)
  /-- The report `raven.CapturePanic` makes of a recovered panic. -/
  | capturePanic (s : String)
  deriving DecidableEq, Repr

/-- What a Go `panic` was raised with. -/
inductive PanicValue where
  /-- From `panic(err)`. -/
  | err (e : Error)
  /-- From `log.Panic(err)`, which panics with the formatted message. -/
  | str (s : String)
  /-- The run-time panic of dereferencing a nil pointer. -/
  | nilDereference
  deriving DecidableEq, Repr

/-- How a function call ends. -/
inductive Outcome (α : Type) where
  | returned (a : α)
  | panicked (v : PanicValue)
  deriving DecidableEq, Repr

/-- A run: the effects in order, and how the call ended. -/
structure Run (α : Type) where
  trace : List Event
  outcome : Outcome α
  deriving DecidableEq, Repr

/-- The tag map every handler-side capture with context carries. -/
def requestTags (request : APIGatewayProxyRequest) : Option (List (String × String)) :=
  some [("request", request.Body)]

/-! ## The program -/

/-- The `for _, x := range envvars` loop of `init`. -/
def initLoop : List String → Run Unit
  | [] => ⟨[], .returned ()⟩
  | x :: xs =>
    if x = "" then
      ⟨[.log (.envVar x), .capture (errorsNew "Could not load environmental vars") none],
        .panicked (.err (errorsNew "Could not load environmental vars"))⟩
    else
      let rest := initLoop xs
      ⟨.log (.envVar x) :: rest.trace, rest.outcome⟩

/-- The Go function `init`. -/
def init (cfg : Config) : Run Unit :=
  let envvars := [cfg.MonzoAccountID, cfg.YnabAccountID, cfg.YnabAPIKey, cfg.YnabBaseURL,
    cfg.YnabBudgetID]
  let loop := initLoop envvars
  ⟨[.setDSN, .log .environmentalVars] ++ loop.trace, loop.outcome⟩

/-- The Go function `handler`, statement by statement.

* `log.Panic(err)` writes the message and panics with it, so the decoding failure ends
  the run.
* `var payee` with its `if`/`else if` chain and the early `return` of the last `else` is
  an optional payee: `none` is the early return.
* The error of `http.NewRequest` is assigned and never tested; when it is non-nil the
  request is nil and the next statement, `req.Header.Set`, dereferences it.
* `client.Timeout = time.Second * 5` is the `Timeout` of the client `client.Do` runs on.
* `body, _ := ioutil.ReadAll(resp.Body)` is the `Body` of the response; the deferred
  `resp.Body.Close()` leaves no effect in the trace. -/
def handler (lib : Lib) (cfg : Config) (request : APIGatewayProxyRequest) :
    Run (APIGatewayProxyResponse × Option Error) :=
  let t0 : List Event :=
    [.log (.lambdaRequest request.RequestID), .log (.requestBody request.Body)]
  match lib.jsonUnmarshal request.Body with
  | .error err =>
    ⟨t0 ++ [.capture err (requestTags request), .log (.panicLine err.msg)],
      .panicked (.str err.msg)⟩
  | .ok raw =>
    let t1 := t0 ++ [.log (.monzoTransaction raw)]
    if raw.Data.AccountID = cfg.MonzoAccountID then
      let t2 := t1 ++ [.log (.accountMatches raw.Data.AccountID cfg.MonzoAccountID)]
      let payee : Option String :=
        if len raw.Data.Merchant.Name > 0 then some raw.Data.Merchant.Name
        else if len raw.Data.Counterparty.Name > 0 then some raw.Data.Counterparty.Name
        else if len raw.Data.Description > 0 then some raw.Data.Description
        else none
      match payee with
      | none =>
        ⟨t2 ++ [.capture (errorsNew "No payee data found") (requestTags request)],
          .returned ({ Body := "No payee data found", StatusCode := 500 },
            some (errorsNew "No payee data found"))⟩
      | some payee =>
        let trans : YNABTransactionWrapper :=
          { YNABTransaction :=
              { AccountID := cfg.YnabAccountID
                Date := raw.Data.Created
                Amount := Float64.mul raw.Data.Amount (Float64.ofNat 10)
                Payee := payee
                Cleared := "cleared"
                ImportID := raw.Data.TransactionID } }
        let t3 := t2 ++ [.log (.ynabTransaction trans)]
        match lib.jsonMarshal trans with
        | .error err =>
          ⟨t3 ++ [.capture err (requestTags request)],
            .returned ({ StatusCode := 500 }, some err)⟩
        | .ok response =>
          let url := lib.sprintf cfg.YnabBaseURL cfg.YnabBudgetID
          let t4 := t3 ++ [.log (.ynabPostURL url)]
          match newRequest lib "POST" url response with
          | .error _ => ⟨t4, .panicked .nilDereference⟩
          | .ok req =>
            let req := req.headerSet "Authorization" ("Bearer " ++ cfg.YnabAPIKey)
            let req := req.headerSet "Content-Type" "application/json"
            let client : Client := { Timeout := 5 }
            match lib.clientDo client req with
            | .error err =>
              ⟨t4 ++ [.clientDo client req (.error err), .capture err (requestTags request)],
                .returned ({ StatusCode := 500 }, some err)⟩
            | .ok resp =>
              let body := resp.Body
              let post := "POST status: " ++ resp.Status ++ " - " ++ body
              ⟨t4 ++ [.clientDo client req (.ok resp), .log (.postStatus post)],
                .returned ({ Body := post, StatusCode := 200 }, none)⟩
    else
      ⟨t1 ++ [.capture (errorsNew "Invalid Monzo account ID") (requestTags request)],
        .returned ({ Body := "Invalid Monzo account ID", StatusCode := 500 },
          some (errorsNew "Invalid Monzo account ID"))⟩

/-- The call `lambda.Start(handler)` over the requests the runtime delivers, one at a
time. -/
def lambdaStart (lib : Lib) (cfg : Config) : List APIGatewayProxyRequest → Run Unit
  | [] => ⟨[], .returned ()⟩
  | request :: rest =>
    let r := handler lib cfg request
    match r.outcome with
    | .panicked v =>
      if lib.lambdaRecovers then
        let rs := lambdaStart lib cfg rest
        ⟨r.trace ++ rs.trace, rs.outcome⟩
      else ⟨r.trace, .panicked v⟩
    | .returned _ =>
      let rs := lambdaStart lib cfg rest
      ⟨r.trace ++ rs.trace, rs.outcome⟩

/-- What `fmt.Sprint` makes of a panic value. -/
def PanicValue.text : PanicValue → String
  | .err e => e.msg
  | .str s => s
  | .nilDereference => "runtime error: invalid memory address or nil pointer dereference"

/-- The Go function `main`: `raven.CapturePanic` runs `lambda.Start(handler)`, recovers a
panic that escapes it and reports it. -/
def main (lib : Lib) (cfg : Config) (requests : List APIGatewayProxyRequest) : Run Unit :=
  let r := lambdaStart lib cfg requests
  match r.outcome with
  | .panicked v => ⟨r.trace ++ [.capturePanic v.text], .returned ()⟩
  | .returned u => ⟨r.trace, .returned u⟩

/-- Program execution: the package is initialised (the five variables, then `init`)
before `main` is invoked; a panic in `init` ends the process. -/
def program (lib : Lib) (cfg : Config) (requests : List APIGatewayProxyRequest) : Run Unit :=
  let i := init cfg
  match i.outcome with
  | .panicked v => ⟨i.trace, .panicked v⟩
  | .returned _ =>
    let m := main lib cfg requests
    ⟨i.trace ++ m.trace, m.outcome⟩

/-! ## Reading a trace -/

/-- The outbound exchanges of a trace: each `client.Do` call with its request. -/
def posts : List Event → List (Client × Request × Result Response)
  | [] => []
  | .clientDo c req res :: t => (c, req, res) :: posts t
  | _ :: t => posts t

/-- The outbound transactions built in a trace (each is logged once built). -/
def builtTransactions : List Event → List YNABTransaction
  | [] => []
  | .log (.ynabTransaction w) :: t => w.YNABTransaction :: builtTransactions t
  | _ :: t => builtTransactions t

/-- The reports made to the error tracker in a trace. -/
def captures : List Event → List (Error × Option (List (String × String)))
  | [] => []
  | .capture e tags :: t => (e, tags) :: captures t
  | _ :: t => captures t

/-- The request identifiers of the handler invocations a trace contains. -/
def handlerRuns : List Event → List String
  | [] => []
  | .log (.lambdaRequest id) :: t => id :: handlerRuns t
  | _ :: t => handlerRuns t

/-- All five configuration values are non-empty. -/
def Config.complete (cfg : Config) : Prop :=
  cfg.MonzoAccountID ≠ "" ∧ cfg.YnabAccountID ≠ "" ∧ cfg.YnabAPIKey ≠ "" ∧
    cfg.YnabBaseURL ≠ "" ∧ cfg.YnabBudgetID ≠ ""

instance (cfg : Config) : Decidable cfg.complete := by
  unfold Config.complete; infer_instance

/-! ## Sample inputs and library behaviour

Concrete requests, configurations and a concrete `Lib` on which the statements below
are exercised. The sample library follows Go on the sample inputs: the decoder is the
table of the sample bodies, the encoder renders integer amounts and strings that need
no escaping, and `fmt.Sprintf` is covered for formats whose verbs are `%s`. -/

/-- A decoded notification with the given account, amount, description, counterparty
name, transaction id and merchant name. -/
def sampleRaw (account : String) (amount : Float64) (description counterparty id
    merchant : String) : MonzoTransaction :=
  { TransactionType := "transaction.created"
    Data :=
      { AccountID := account
        Amount := amount
        Created := "2020-01-01T00:00:00Z"
        Description := description
        Counterparty := ⟨counterparty⟩
        TransactionID := id
        Merchant := ⟨merchant⟩ } }

/-- The end-to-end request body of the specification. -/
def coffeeBody : String :=
  "\x7b\"type\":\"transaction.created\",\"data\":\x7b\"account_id\":\"acc_123\",\"amount\":150,\"created\":\"2020-01-01T00:00:00Z\",\"description\":\"Coffee Shop\",\"id\":\"tx_1\"\x7d\x7d"

/-- A body with merchant, counterparty and description, amount 250. -/
def tescoBody : String :=
  "\x7b\"type\":\"transaction.created\",\"data\":\x7b\"account_id\":\"acc_123\",\"amount\":250,\"created\":\"2020-01-01T00:00:00Z\",\"description\":\"groceries\",\"counterparty\":\x7b\"name\":\"Jane\"\x7d,\"id\":\"tx_2\",\"merchant\":\x7b\"name\":\"Tesco\"\x7d\x7d\x7d"

/-- A body with counterparty and description only, amount -150. -/
def janeBody : String :=
  "\x7b\"type\":\"transaction.created\",\"data\":\x7b\"account_id\":\"acc_123\",\"amount\":-150,\"created\":\"2020-01-01T00:00:00Z\",\"description\":\"groceries\",\"counterparty\":\x7b\"name\":\"Jane\"\x7d,\"id\":\"tx_3\"\x7d\x7d"

/-- A body with a description only, amount 250. -/
def groceriesBody : String :=
  "\x7b\"type\":\"transaction.created\",\"data\":\x7b\"account_id\":\"acc_123\",\"amount\":250,\"created\":\"2020-01-01T00:00:00Z\",\"description\":\"groceries\",\"id\":\"tx_4\"\x7d\x7d"

/-- A body for another account, with a merchant. -/
def otherAccountBody : String :=
  "\x7b\"type\":\"transaction.created\",\"data\":\x7b\"account_id\":\"acc_999\",\"amount\":250,\"created\":\"2020-01-01T00:00:00Z\",\"description\":\"groceries\",\"id\":\"tx_5\",\"merchant\":\x7b\"name\":\"Tesco\"\x7d\x7d\x7d"

/-- A body with no merchant, counterparty or description. -/
def noPayeeBody : String :=
  "\x7b\"type\":\"transaction.created\",\"data\":\x7b\"account_id\":\"acc_123\",\"amount\":250,\"created\":\"2020-01-01T00:00:00Z\",\"id\":\"tx_6\"\x7d\x7d"

/-- A body whose amount is the JSON number `1e308`. -/
def hugeBody : String :=
  "\x7b\"type\":\"transaction.created\",\"data\":\x7b\"account_id\":\"acc_123\",\"amount\":1e308,\"created\":\"2020-01-01T00:00:00Z\",\"description\":\"Coffee Shop\",\"id\":\"tx_7\"\x7d\x7d"

/-- A body whose amount is the integer `9007199254740991`, that is `2 ^ 53 - 1`. -/
def bigOddBody : String :=
  "\x7b\"type\":\"transaction.created\",\"data\":\x7b\"account_id\":\"acc_123\",\"amount\":9007199254740991,\"created\":\"2020-01-01T00:00:00Z\",\"description\":\"Coffee Shop\",\"id\":\"tx_8\"\x7d\x7d"

/-- A truncated body, which is not JSON. -/
def truncatedBody : String := "\x7b\"type\":"

/-- Decoding of the sample bodies; a body outside the table is answered like the
truncated one. -/
def sampleUnmarshal (body : String) : Result MonzoTransaction :=
  if body = coffeeBody then
    .ok (sampleRaw "acc_123" (Float64.ofNat 150) "Coffee Shop" "" "tx_1" "")
  else if body = tescoBody then
    .ok (sampleRaw "acc_123" (Float64.ofNat 250) "groceries" "Jane" "tx_2" "Tesco")
  else if body = janeBody then
    .ok (sampleRaw "acc_123" (Float64.ofInt (-150)) "groceries" "Jane" "tx_3" "")
  else if body = groceriesBody then
    .ok (sampleRaw "acc_123" (Float64.ofNat 250) "groceries" "" "tx_4" "")
  else if body = otherAccountBody then
    .ok (sampleRaw "acc_999" (Float64.ofNat 250) "groceries" "" "tx_5" "Tesco")
  else if body = noPayeeBody then
    .ok (sampleRaw "acc_123" (Float64.ofNat 250) "" "" "tx_6" "")
  else if body = hugeBody then
    .ok (sampleRaw "acc_123" (Float64.ofNat (10 ^ 308)) "Coffee Shop" "" "tx_7" "")
  else if body = bigOddBody then
    .ok (sampleRaw "acc_123" (Float64.ofNat 9007199254740991) "Coffee Shop" "" "tx_8" "")
  else .error ⟨"unexpected end of JSON input"⟩

/-- Encoding of an envelope: `json.Marshal` rejects an infinite or NaN amount; an
integer amount below `1e21` in magnitude is written in decimal. Other amounts are
outside the sample encoder. -/
def sampleMarshal (w : YNABTransactionWrapper) : Result String :=
  let t := w.YNABTransaction
  if t.Amount.isInf || t.Amount.isNaN then
    .error ⟨"json: unsupported value: " ++
      (if t.Amount.isNaN then "NaN" else if t.Amount.sign then "-Inf" else "+Inf")⟩
  else
    match t.Amount.toInt with
    | none => .error ⟨"sample encoder: fractional amount"⟩
    | some n =>
      if n.natAbs ≥ 10 ^ 21 then .error ⟨"sample encoder: amount in exponent form"⟩
      else
        .ok ("\x7b\"transaction\":\x7b\"account_id\":\"" ++ t.AccountID ++
          "\",\"date\":\"" ++ t.Date ++ "\",\"amount\":" ++ toString n ++
          ",\"payee_name\":\"" ++ t.Payee ++ "\",\"cleared\":\"" ++ t.Cleared ++
          "\",\"import_id\":\"" ++ t.ImportID ++ "\"\x7d\x7d")

/-- Formatting with one string operand: the first `%s` takes the operand, a later one
reports it missing; an operand no verb took is reported as extra. -/
def sampleSprintfAux (arg : String) : List Char → Bool → List Char
  | [], true => []
  | [], false => ("%!(EXTRA string=" ++ arg ++ ")").data
  | '%' :: 's' :: rest, false => arg.data ++ sampleSprintfAux arg rest true
  | '%' :: 's' :: rest, true => "%!s(MISSING)".data ++ sampleSprintfAux arg rest true
  | c :: rest, used => c :: sampleSprintfAux arg rest used

/-- Sample `fmt.Sprintf(format, arg)`. -/
def sampleSprintf (format arg : String) : String :=
  ⟨sampleSprintfAux arg format.data false⟩

/-- A percent sign that does not start a two-digit hexadecimal escape, before any
question mark. -/
def sampleBadEscape : List Char → Bool
  | [] => false
  | '?' :: _ => false
  | '%' :: a :: b :: rest =>
    if a.isDigit || ('a' ≤ a.toLower && a.toLower ≤ 'f') then
      if b.isDigit || ('a' ≤ b.toLower && b.toLower ≤ 'f') then sampleBadEscape rest
      else true
    else true
  | '%' :: _ => true
  | _ :: rest => sampleBadEscape rest

/-- Sample `http.NewRequest` failure: a URL that starts with a colon has no scheme, and
a URL with a malformed percent escape ahead of its query does not parse. -/
def sampleNewRequestError (_method url : String) : Option Error :=
  match url.data with
  | ':' :: _ => some ⟨"parse " ++ url ++ ": missing protocol scheme"⟩
  | cs =>
    if sampleBadEscape cs then some ⟨"parse " ++ url ++ ": invalid URL escape"⟩ else none

/-- The sample library in front of a downstream service whose answer to every request
is `downstream`. -/
def sampleLib (downstream : Result Response) : Lib where
  jsonUnmarshal := sampleUnmarshal
  jsonMarshal := sampleMarshal
  sprintf := sampleSprintf
  newRequestError := sampleNewRequestError
  clientDo := fun _ _ => downstream
  lambdaRecovers := true

/-- A downstream answer `200 OK` with body `ok`. -/
def downstreamOK : Result Response := .ok ⟨"200 OK", "ok"⟩

/-- A downstream answer `400 Bad Request`. -/
def downstreamBadRequest : Result Response := .ok ⟨"400 Bad Request", "bad"⟩

/-- A request that ran into the client timeout. -/
def downstreamTimeout : Result Response :=
  .error ⟨"net/http: request canceled (Client.Timeout exceeded while awaiting headers)"⟩

/-- A request whose connection the downstream host refused. -/
def downstreamRefused : Result Response :=
  .error ⟨"dial tcp 127.0.0.1:443: connect: connection refused"⟩

/-- A complete configuration for account `acc_123`. -/
def sampleConfig : Config :=
  { MonzoAccountID := "acc_123"
    YnabAccountID := "ynab_acc"
    YnabAPIKey := "key"
    YnabBaseURL := "https://api.youneedabudget.com/v1/budgets/%s/transactions"
    YnabBudgetID := "budget_1" }

/-- A request with the given body. -/
def sampleRequest (body : String) : APIGatewayProxyRequest := ⟨"req-1", body⟩

/-! ## Basic facts -/

namespace Float64

/-- With enough fuel the halving count is the binary logarithm. -/
theorem log2Fuel_eq_log : ∀ (fuel n : Nat), n ≤ fuel → log2Fuel fuel n = Nat.log 2 n
  | 0, n, h => by
    have : n = 0 := by omega
    subst this
    simp [log2Fuel]
  | fuel + 1, n, h => by
    rw [log2Fuel]
    by_cases h2 : n < 2
    · rw [if_pos h2, Nat.log_of_lt h2]
    · have h3 : n / 2 ≤ fuel := by omega
      rw [if_neg h2, log2Fuel_eq_log fuel (n / 2) h3]
      exact (Nat.log_of_one_lt_of_le (by omega) (by omega)).symm

/-- The leading-bit position is the binary logarithm. -/
theorem ilog2_eq_log (n : Nat) : ilog2 n = Nat.log 2 n :=
  log2Fuel_eq_log n n (Nat.le_refl n)

/-- Two binades that share a number are the same binade. -/
theorem binade_unique {a b x : Nat} (ha : 2 ^ a ≤ x) (ha2 : x < 2 ^ (a + 1))
    (hb : 2 ^ b ≤ x) (hb2 : x < 2 ^ (b + 1)) : a = b := by
  have h1 : 2 ^ a < 2 ^ (b + 1) := lt_of_le_of_lt ha hb2
  have h2 : 2 ^ b < 2 ^ (a + 1) := lt_of_le_of_lt hb ha2
  have h3 := (Nat.pow_lt_pow_iff_right (by omega : 1 < 2)).1 h1
  have h4 := (Nat.pow_lt_pow_iff_right (by omega : 1 < 2)).1 h2
  omega

/-- The binade of a magnitude `M * 2 ^ K` that equals `m * 2 ^ Q` for a 53-bit
significand `m`. -/
theorem log_add_of_value {M K m Q B : Nat} (hB : B = 2 ^ 52) (hm : B ≤ m) (hm2 : m < 2 * B)
    (hval : M * 2 ^ K = m * 2 ^ Q) : Nat.log 2 M + K = 52 + Q := by
  have hM0 : M ≠ 0 := by
    intro h0
    rw [h0, Nat.zero_mul] at hval
    have h1 : 0 < m := by
      have : 0 < B := by rw [hB]; exact Nat.two_pow_pos 52
      omega
    have : 0 < m * 2 ^ Q := Nat.mul_pos h1 (Nat.two_pow_pos Q)
    omega
  have hL1 := Nat.pow_log_le_self 2 hM0
  have hL2 := Nat.lt_pow_succ_log_self (by omega : 1 < 2) M
  apply binade_unique (x := M * 2 ^ K)
  · rw [Nat.pow_add]; exact Nat.mul_le_mul_right _ hL1
  · rw [show Nat.log 2 M + K + 1 = (Nat.log 2 M + 1) + K by omega, Nat.pow_add]
    exact Nat.mul_lt_mul_of_pos_right hL2 (Nat.two_pow_pos K)
  · rw [hval, Nat.pow_add, ← hB]
    exact Nat.mul_le_mul_right _ hm
  · rw [hval, show 52 + Q + 1 = Q + 53 by omega, Nat.pow_add,
      show (2 : Nat) ^ 53 = 2 * B by rw [hB]; rfl, Nat.mul_comm (2 ^ Q)]
    exact Nat.mul_lt_mul_of_pos_right hm2 (Nat.two_pow_pos Q)

/-- Scaling to the quantum `2 ^ Q` is exact on a magnitude that is a multiple of it. -/
theorem scaled_exact {M K m Q : Nat} (hval : M * 2 ^ K = m * 2 ^ Q) :
    (if Q ≤ K then M * 2 ^ (K - Q) else roundShift M (Q - K)) = m := by
  by_cases hQK : Q ≤ K
  · rw [if_pos hQK]
    obtain ⟨j, rfl⟩ : ∃ j, K = j + Q := ⟨K - Q, by omega⟩
    rw [Nat.pow_add, ← Nat.mul_assoc] at hval
    have := Nat.eq_of_mul_eq_mul_right (Nat.two_pow_pos Q) hval
    rw [Nat.add_sub_cancel]
    exact this
  · rw [if_neg hQK]
    obtain ⟨d, rfl⟩ : ∃ d, Q = K + d := ⟨Q - K, by omega⟩
    have hd : 0 < d := by omega
    rw [Nat.pow_add, Nat.mul_comm (2 ^ K), ← Nat.mul_assoc] at hval
    have hMm : M = m * 2 ^ d := Nat.eq_of_mul_eq_mul_right (Nat.two_pow_pos K) hval
    have hr : M % 2 ^ d = 0 := by
      rw [hMm]; exact Nat.mul_mod_left _ _
    have hq : M / 2 ^ d = m := by
      rw [hMm]; exact Nat.mul_div_cancel _ (Nat.two_pow_pos d)
    have hh : 0 < 2 ^ (d - 1) := Nat.two_pow_pos _
    rw [Nat.add_sub_cancel_left]
    unfold roundShift
    simp only [hr, hq]
    rw [if_neg]
    omega

/-- Rounding is exact on a magnitude that a normal binary64 value denotes: if
`M * 2 ^ K = m * 2 ^ (E + 1073)` with `m` a 53-bit significand and `E` a normal biased
exponent, the result has exactly these fields. -/
theorem roundPack_exact (s : Bool) (M K m E : Nat) (hm : 2 ^ 52 ≤ m) (hm2 : m < 2 ^ 53)
    (hE : 1 ≤ E) (hE2 : E < 2047) (hval : M * 2 ^ K = m * 2 ^ (E + 1073)) :
    roundPack s M K = ⟨s, E, m - 2 ^ 52⟩ := by
  have hLK : Nat.log 2 M + K = 52 + (E + 1073) :=
    log_add_of_value rfl hm (by omega) hval
  have hM0 : M ≠ 0 := by
    intro h0
    rw [h0, Nat.zero_mul] at hval
    have : 0 < m * 2 ^ (E + 1073) := Nat.mul_pos (by omega) (Nat.two_pow_pos _)
    omega
  have hQ : max (ilog2 M + K - 52) 1074 = E + 1073 := by
    rw [ilog2_eq_log]; omega
  unfold roundPack
  rw [if_neg hM0]
  simp only [hQ, scaled_exact hval]
  have hne : m ≠ 2 ^ 53 := by omega
  have h1 : ¬ m < 2 ^ 52 := by omega
  have h2 : ¬ (E + 1073 - 1073 ≥ 2047) := by omega
  have h3 : E + 1073 - 1073 = E := by omega
  have h4 : ¬ E ≥ 2047 := by omega
  unfold pack
  simp only [if_neg hne, if_neg h1, if_neg h2, h3, if_neg h4]


/-- The binary64 fields of a positive integer below `2 ^ 53`: it is represented exactly. -/
theorem roundPack_int (s : Bool) (M : Nat) (hM0 : 0 < M) (hM : M < 2 ^ 53) :
    roundPack s M 2148 =
      ⟨s, Nat.log 2 M + 1023, M * 2 ^ (52 - Nat.log 2 M) - 2 ^ 52⟩ := by
  have hL1 := Nat.pow_log_le_self 2 (by omega : M ≠ 0)
  have hL2 := Nat.lt_pow_succ_log_self (by omega : 1 < 2) M
  have hL : Nat.log 2 M < 53 := Nat.log_lt_of_lt_pow (by omega) hM
  obtain ⟨j, hj⟩ : ∃ j, 52 = Nat.log 2 M + j := ⟨52 - Nat.log 2 M, by omega⟩
  have hj2 : 52 - Nat.log 2 M = j := by omega
  rw [hj2]
  apply roundPack_exact
  · rw [hj, Nat.pow_add]
    exact Nat.mul_le_mul_right _ hL1
  · rw [show 53 = (Nat.log 2 M + 1) + j by omega, Nat.pow_add]
    exact Nat.mul_lt_mul_of_pos_right hL2 (Nat.two_pow_pos j)
  · omega
  · omega
  · have e : 2148 = j + (Nat.log 2 M + 1023 + 1073) := by omega
    have e2 : (2 : Nat) ^ 2148 = 2 ^ (j + (Nat.log 2 M + 1023 + 1073)) :=
      congrArg (fun x => 2 ^ x) e
    rw [e2, Nat.pow_add, Nat.mul_assoc]

/-- The constant 10 as a float64: 1.25 times 2 to the 3. -/
theorem ofNat_ten : ofNat 10 = ⟨false, 1026, 2 ^ 50⟩ := by decide

/-- The product of two finite values is their exact product, rounded. -/
theorem mul_finite (a b : Float64) (ha : a.exp < 2047) (hb : b.exp < 2047) :
    mul a b = roundPack (xor a.sign b.sign) (a.significand * b.significand)
      (a.scale + b.scale) := by
  have h1 : (a.exp == 2047) = false := by simp; omega
  have h2 : (b.exp == 2047) = false := by simp; omega
  simp [mul, isNaN, isInf, h1, h2]

/-- Ten times an integer, as magnitudes: the exact product of the significands of the
integer and of the constant 10 against the significand of ten times the integer. -/
theorem ten_times_value (M j j2 L L2 c : Nat) (hj : L + j = 52) (hj2 : L2 + j2 = 52) :
    M * 2 ^ j * (2 ^ 52 + 2 ^ 50) * 2 ^ (L + (c + 51)) =
      10 * M * 2 ^ j2 * 2 ^ (L2 + (c + 100)) := by
  have h1 : (2 : Nat) ^ j * 2 ^ L = 2 ^ 52 := by rw [← Nat.pow_add, Nat.add_comm, hj]
  have h2 : (2 : Nat) ^ j2 * 2 ^ L2 = 2 ^ 52 := by rw [← Nat.pow_add, Nat.add_comm, hj2]
  calc M * 2 ^ j * (2 ^ 52 + 2 ^ 50) * 2 ^ (L + (c + 51))
      = M * (2 ^ j * 2 ^ L) * ((2 ^ 52 + 2 ^ 50) * 2 ^ 51) * 2 ^ c := by ring
    _ = M * (2 ^ j2 * 2 ^ L2) * (10 * 2 ^ 100) * 2 ^ c := by rw [h1, h2]; ring
    _ = 10 * M * 2 ^ j2 * 2 ^ (L2 + (c + 100)) := by ring

/-- The float64 product of an integer below `2 ^ 53 / 10` in magnitude with the constant
10 is the float64 of ten times the integer. -/
theorem mul_ofInt_ten (n : Int) (h : 10 * n.natAbs < 2 ^ 53) :
    mul (ofInt n) (ofNat 10) = ofInt (10 * n) := by
  by_cases hn : n = 0
  · subst hn
    decide
  · have hM0 : 0 < n.natAbs := Int.natAbs_pos.2 hn
    have hs : decide (10 * n < 0) = decide (n < 0) := by
      congr 1
      apply propext
      constructor <;> intro _ <;> omega
    have habs : (10 * n).natAbs = 10 * n.natAbs := by omega
    have hL : Nat.log 2 n.natAbs < 53 := Nat.log_lt_of_lt_pow (by omega) (by omega)
    have hL2 : Nat.log 2 (10 * n.natAbs) < 53 := Nat.log_lt_of_lt_pow (by omega) h
    have hL1 := Nat.pow_log_le_self 2 (by omega : n.natAbs ≠ 0)
    have hL3 := Nat.pow_log_le_self 2 (by omega : 10 * n.natAbs ≠ 0)
    have hL4 := Nat.lt_pow_succ_log_self (by omega : 1 < 2) (10 * n.natAbs)
    unfold ofInt
    rw [hs, habs, roundPack_int _ _ (by omega) h, roundPack_int _ _ hM0 (by omega), ofNat_ten]
    generalize hMdef : n.natAbs = M at *
    generalize hLdef : Nat.log 2 M = L at *
    generalize hL2def : Nat.log 2 (10 * M) = L2 at *
    obtain ⟨j, hj⟩ : ∃ j, L + j = 52 := ⟨52 - L, by omega⟩
    obtain ⟨j2, hj2⟩ : ∃ j2, L2 + j2 = 52 := ⟨52 - L2, by omega⟩
    have hj' : 52 - L = j := by omega
    have hj2' : 52 - L2 = j2 := by omega
    rw [hj', hj2']
    have hge : 2 ^ 52 ≤ M * 2 ^ j := by
      rw [← hj, Nat.pow_add]
      exact Nat.mul_le_mul_right _ hL1
    have hge2 : 2 ^ 52 ≤ 10 * M * 2 ^ j2 := by
      rw [← hj2, Nat.pow_add]
      exact Nat.mul_le_mul_right _ hL3
    have hlt2 : 10 * M * 2 ^ j2 < 2 ^ 53 := by
      rw [show 53 = (L2 + 1) + j2 by omega, Nat.pow_add]
      exact Nat.mul_lt_mul_of_pos_right hL4 (Nat.two_pow_pos j2)
    rw [mul_finite _ _ (by show L + 1023 < 2047; omega) (by show 1026 < 2047; omega)]
    have hsig : significand ⟨decide (n < 0), L + 1023, M * 2 ^ j - 2 ^ 52⟩ = M * 2 ^ j := by
      have : L + 1023 ≠ 0 := by omega
      simp only [significand, if_neg this]
      omega
    have hsig10 : significand ⟨false, 1026, 2 ^ 50⟩ = 2 ^ 52 + 2 ^ 50 := by
      simp [significand]
    obtain ⟨c, hc⟩ : ∃ c, c = 1996 := ⟨_, rfl⟩
    have hscale : scale ⟨decide (n < 0), L + 1023, M * 2 ^ j - 2 ^ 52⟩ +
        scale ⟨false, 1026, 2 ^ 50⟩ = L + (c + 51) := by
      simp only [scale]; omega
    have hE : L2 + 1023 + 1073 = L2 + (c + 100) := by omega
    rw [hsig, hsig10, hscale, Bool.xor_false]
    apply roundPack_exact _ _ _ _ _ hge2 hlt2 (by omega) (by omega)
    rw [hE]
    exact ten_times_value M j j2 L L2 c hj hj2

set_option exponentiation.threshold 2200 in
/-- The integer a float64 converted from an integer below `2 ^ 53` in magnitude denotes
is that integer. -/
theorem toInt_ofInt (k : Int) (h : k.natAbs < 2 ^ 53) : toInt (ofInt k) = some k := by
  by_cases hk : k = 0
  · subst hk
    simp [ofInt, roundPack, toInt, significand, scale]
  · have hM0 : 0 < k.natAbs := Int.natAbs_pos.2 hk
    have hL : Nat.log 2 k.natAbs < 53 := Nat.log_lt_of_lt_pow (by omega) (by omega)
    have hL1 := Nat.pow_log_le_self 2 (by omega : k.natAbs ≠ 0)
    have hsgn : (if decide (k < 0) = true then -((k.natAbs : Nat) : Int) else (k.natAbs : Int))
        = k := by
      by_cases hneg : k < 0
      · simp only [hneg, decide_True, if_true]; omega
      · simp only [hneg, decide_False, Bool.false_eq_true, if_false]; omega
    unfold ofInt
    rw [roundPack_int _ _ hM0 h]
    generalize hMdef : k.natAbs = M at *
    generalize hLdef : Nat.log 2 M = L at *
    obtain ⟨j, hj⟩ : ∃ j, L + j = 52 := ⟨52 - L, by omega⟩
    have hj' : 52 - L = j := by omega
    rw [hj']
    have hge : 2 ^ 52 ≤ M * 2 ^ j := by
      rw [← hj, Nat.pow_add]
      exact Nat.mul_le_mul_right _ hL1
    have hexp : ¬ (L + 1023 ≥ 2047) := by omega
    have hexp0 : L + 1023 ≠ 0 := by omega
    have hsig : 2 ^ 52 + (M * 2 ^ j - 2 ^ 52) = M * 2 ^ j := by omega
    simp only [toInt, significand, scale, if_neg hexp, if_neg hexp0, hsig]
    by_cases h52 : L + 1023 - 1 ≥ 1074
    · have hj0 : j = 0 := by omega
      have he : L + 1023 - 1 - 1074 = 0 := by omega
      rw [if_pos h52, he, hj0]
      simp only [Nat.pow_zero, Nat.mul_one]
      rw [hsgn]
    · have he : 1074 - (L + 1023 - 1) = j := by omega
      rw [if_neg h52, he, Nat.mul_mod_left, if_pos rfl, Nat.mul_div_cancel _ (Nat.two_pow_pos j)]
      rw [hsgn]


/-- A packed value carries the sign it was given and is not NaN. -/
theorem pack_sign (s : Bool) (m Q : Nat) :
    (pack s m Q).sign = s ∧ (pack s m Q).isNaN = false := by
  unfold pack
  simp only []
  split_ifs <;> simp [inf, isNaN]
  omega

/-- A rounded value carries the sign it was given and is not NaN. -/
theorem roundPack_sign (s : Bool) (M K : Nat) :
    (roundPack s M K).sign = s ∧ (roundPack s M K).isNaN = false := by
  unfold roundPack
  split
  · simp [isNaN]
  · exact pack_sign _ _ _

/-- Multiplying by the constant 10 keeps the sign, and yields NaN only from NaN. -/
theorem mul_ten_sign (a : Float64) (h : a.isNaN = false) :
    (mul a (ofNat 10)).sign = a.sign ∧ (mul a (ofNat 10)).isNaN = false := by
  have h10 : (ofNat 10).isNaN = false := by decide
  have h10i : (ofNat 10).isInf = false := by decide
  have h10z : (ofNat 10).isZero = false := by decide
  have h10s : (ofNat 10).sign = false := by decide
  unfold mul
  simp only [h, h10, h10i, h10z, h10s, Bool.or_false, Bool.false_eq_true, if_false,
    Bool.xor_false]
  split
  · rename_i hinf
    have hz : a.isZero = false := by
      simp only [isInf, Bool.and_eq_true, beq_iff_eq] at hinf
      simp [isZero, hinf.1]
    simp [hz, inf, isNaN]
  · exact roundPack_sign _ _ _

end Float64

namespace Float64

/-- Rounding a quotient: the result is within half a quantum of the dividend, and on an
exact tie it is even. -/
theorem roundShift_spec (M d : Nat) (hd : 0 < d) :
    2 * gap (roundShift M d * 2 ^ d) M ≤ 2 ^ d ∧
      (2 * gap (roundShift M d * 2 ^ d) M = 2 ^ d → roundShift M d % 2 = 0) ∧
      M / 2 ^ d ≤ roundShift M d ∧ roundShift M d ≤ M / 2 ^ d + 1 := by
  obtain ⟨d', rfl⟩ : ∃ d', d = d' + 1 := ⟨d - 1, by omega⟩
  have hP : (2 : Nat) ^ (d' + 1) = 2 * 2 ^ d' := by rw [Nat.pow_succ, Nat.mul_comm]
  have hdm := Nat.div_add_mod M (2 ^ (d' + 1))
  have hr := Nat.mod_lt M (Nat.two_pow_pos (d' + 1))
  have hh := Nat.two_pow_pos d'
  unfold roundShift
  simp only [Nat.add_sub_cancel]
  generalize hm0 : M / 2 ^ (d' + 1) = m0 at *
  generalize hrr : M % 2 ^ (d' + 1) = r at *
  have hmul : (m0 + 1) * 2 ^ (d' + 1) = 2 ^ (d' + 1) * m0 + 2 ^ (d' + 1) := by ring
  have hmul0 : m0 * 2 ^ (d' + 1) = 2 ^ (d' + 1) * m0 := by ring
  generalize hP' : (2 : Nat) ^ (d' + 1) = P at *
  generalize hh' : (2 : Nat) ^ d' = h at *
  generalize ha : P * m0 = a at *
  split
  · rename_i hc
    rw [hmul]
    unfold gap
    refine ⟨by omega, ?_, by omega, by omega⟩
    intro ht
    rcases hc with hc | ⟨hc1, hc2⟩
    · omega
    · omega
  · rename_i hc
    rw [hmul0]
    unfold gap
    have hc1 : ¬ r > h := fun x => hc (Or.inl x)
    refine ⟨by omega, ?_, by omega, by omega⟩
    intro ht
    have hrh : r = h := by omega
    have : ¬ m0 % 2 = 1 := fun x => hc (Or.inr ⟨hrh, x⟩)
    omega

end Float64

namespace Float64

/-- Scaling both magnitudes scales their distance. -/
theorem gap_mul_right (a b c : Nat) : gap (a * c) (b * c) = gap a b * c := by
  unfold gap
  rw [Nat.add_mul, Nat.sub_mul, Nat.sub_mul]

/-- A magnitude is at distance zero from itself. -/
theorem gap_self (a : Nat) : gap a a = 0 := by
  unfold gap; omega

/-- The scaled significand of `roundPack`: it is within half a quantum `2 ^ Q` of the
magnitude `M * 2 ^ K`, even on a tie, at most `2 ^ 53`, and at least `2 ^ 52` above the
subnormal scale. -/
theorem scaled_spec (M K Q m : Nat) (hM : M ≠ 0)
    (hQ : Q = max (ilog2 M + K - 52) 1074)
    (hm : m = if Q ≤ K then M * 2 ^ (K - Q) else roundShift M (Q - K)) :
    2 * gap (m * 2 ^ Q) (M * 2 ^ K) ≤ 2 ^ Q ∧
      (2 * gap (m * 2 ^ Q) (M * 2 ^ K) = 2 ^ Q → m % 2 = 0) ∧
      m ≤ 2 ^ 53 ∧ 1074 ≤ Q ∧
      (1074 < Q → 2 ^ 52 ≤ m ∧ 2 ^ (Q + 52) ≤ M * 2 ^ K) ∧
      M * 2 ^ K < 2 ^ (Q + 53) := by
  rw [ilog2_eq_log] at hQ
  have hL1 := Nat.pow_log_le_self 2 hM
  have hL2 := Nat.lt_pow_succ_log_self (by omega : 1 < 2) M
  generalize hL : Nat.log 2 M = L at *
  have hQ1 : L + K ≤ Q + 52 := by omega
  have hQ2 : 1074 ≤ Q := by omega
  have hQ3 : 1074 < Q → Q + 52 = L + K := by omega
  have h6 : M * 2 ^ K < 2 ^ (Q + 53) := by
    calc M * 2 ^ K < 2 ^ (L + 1) * 2 ^ K :=
          Nat.mul_lt_mul_of_pos_right hL2 (Nat.two_pow_pos K)
      _ = 2 ^ (L + 1 + K) := by rw [← Nat.pow_add]
      _ ≤ 2 ^ (Q + 53) := Nat.pow_le_pow_right (by omega) (by omega)
  have h5b : 1074 < Q → 2 ^ (Q + 52) ≤ M * 2 ^ K := by
    intro h
    rw [hQ3 h, Nat.pow_add]
    exact Nat.mul_le_mul_right _ hL1
  by_cases hQK : Q ≤ K
  · rw [if_pos hQK] at hm
    obtain ⟨j, rfl⟩ : ∃ j, K = j + Q := ⟨K - Q, by omega⟩
    rw [Nat.add_sub_cancel] at hm
    have hx : m * 2 ^ Q = M * 2 ^ (j + Q) := by
      rw [hm, Nat.pow_add, Nat.mul_assoc]
    have hm53 : m ≤ 2 ^ 53 := by
      rw [hm]
      calc M * 2 ^ j ≤ 2 ^ (L + 1) * 2 ^ j :=
            Nat.mul_le_mul_right _ (Nat.le_of_lt hL2)
        _ = 2 ^ (L + 1 + j) := by rw [← Nat.pow_add]
        _ ≤ 2 ^ 53 := Nat.pow_le_pow_right (by omega) (by omega)
    have hm52 : 1074 < Q → 2 ^ 52 ≤ m := by
      intro h
      have h1 := hQ3 h
      rw [hm]
      calc 2 ^ 52 = 2 ^ (L + j) := by congr 1; omega
        _ = 2 ^ L * 2 ^ j := by rw [Nat.pow_add]
        _ ≤ M * 2 ^ j := Nat.mul_le_mul_right _ hL1
    have hpos := Nat.two_pow_pos Q
    rw [hx, gap_self]
    refine ⟨by omega, by omega, hm53, hQ2, fun h => ⟨hm52 h, h5b h⟩, h6⟩
  · rw [if_neg hQK] at hm
    obtain ⟨d, rfl⟩ : ∃ d, Q = K + d := ⟨Q - K, by omega⟩
    have hd : 0 < d := by omega
    rw [Nat.add_sub_cancel_left] at hm
    obtain ⟨s1, s2, s3, s4⟩ := roundShift_spec M d hd
    rw [← hm] at s1 s2 s3 s4
    have hx : m * 2 ^ (K + d) = (m * 2 ^ d) * 2 ^ K := by
      rw [Nat.pow_add]; ring
    have hP : (2 : Nat) ^ (K + d) = 2 ^ d * 2 ^ K := by
      rw [Nat.pow_add, Nat.mul_comm]
    have hKpos := Nat.two_pow_pos K
    have hm53 : m ≤ 2 ^ 53 := by
      have : M < 2 ^ d * 2 ^ 53 := by
        calc M < 2 ^ (L + 1) := hL2
          _ ≤ 2 ^ (d + 53) := Nat.pow_le_pow_right (by omega) (by omega)
          _ = 2 ^ d * 2 ^ 53 := by rw [Nat.pow_add]
      have := Nat.div_lt_of_lt_mul this
      omega
    have hm52 : 1074 < K + d → 2 ^ 52 ≤ m := by
      intro h
      have h1 := hQ3 h
      have : 2 ^ 52 * 2 ^ d ≤ M := by
        calc 2 ^ 52 * 2 ^ d = 2 ^ (52 + d) := by rw [← Nat.pow_add]
          _ = 2 ^ L := by congr 1; omega
          _ ≤ M := hL1
      have := (Nat.le_div_iff_mul_le (Nat.two_pow_pos d)).2 this
      omega
    rw [hx, gap_mul_right, hP]
    refine ⟨?_, ?_, hm53, hQ2, fun h => ⟨hm52 h, h5b h⟩, h6⟩
    · rw [← Nat.mul_assoc]
      exact Nat.mul_le_mul_right _ s1
    · intro ht
      rw [← Nat.mul_assoc] at ht
      exact s2 (Nat.eq_of_mul_eq_mul_right hKpos ht)

end Float64

namespace Float64

/-- The significand of a value with a non-zero exponent field. -/
theorem significand_normal (s : Bool) (E f : Nat) (hE : E ≠ 0) :
    significand ⟨s, E, f⟩ = 2 ^ 52 + f := by
  simp [significand, hE]

/-- What `pack` builds from a significand `m` at the quantum `2 ^ Q`: infinity once the
normalised exponent leaves the finite range, and otherwise the finite value of magnitude
`m * 2 ^ Q` (in units of `2 ^ (-2148)`) whose significand has the parity of `m`. -/
theorem pack_spec (s : Bool) (m Q : Nat) (hm : m ≤ 2 ^ 53) (hQ : 1074 ≤ Q)
    (hn : 1074 < Q → 2 ^ 52 ≤ m) :
    ((2 ^ 52 ≤ m ∧ 3120 ≤ (if m = 2 ^ 53 then Q + 1 else Q)) → pack s m Q = inf s) ∧
    (¬ (2 ^ 52 ≤ m ∧ 3120 ≤ (if m = 2 ^ 53 then Q + 1 else Q)) →
      (pack s m Q).exp < 2047 ∧ (pack s m Q).frac < 2 ^ 52 ∧
      (pack s m Q).mag * 2 ^ 1074 = m * 2 ^ Q ∧
      (pack s m Q).significand % 2 = m % 2) := by
  by_cases h53 : m = 2 ^ 53
  · subst h53
    have e1 : ¬ ((2 : Nat) ^ 52 < 2 ^ 52) := by omega
    constructor
    · rintro ⟨_, h⟩
      rw [if_pos rfl] at h
      have : Q + 1 - 1073 ≥ 2047 := by omega
      simp only [pack, if_true, e1, if_false, this]
    · intro h
      rw [if_pos rfl] at h
      have h1 : ¬ (Q + 1 - 1073 ≥ 2047) := by omega
      have h2 : Q + 1 - 1073 ≠ 0 := by omega
      simp only [pack, if_true, e1, if_false, h1]
      refine ⟨by omega, by omega, ?_, ?_⟩
      · simp only [mag, significand, scale, if_neg h2, Nat.sub_self, Nat.add_zero]
        obtain ⟨j, rfl⟩ : ∃ j, Q = 1074 + j := ⟨Q - 1074, by omega⟩
        have e2 : 1074 + j + 1 - 1073 - 1 = j + 1 := by omega
        have e3 : (2 : Nat) ^ 52 * 2 ^ 1 = 2 ^ 53 := by norm_num
        rw [e2, Nat.mul_assoc, ← Nat.pow_add, show j + 1 + 1074 = 1 + (1074 + j) by omega,
          Nat.pow_add 2 1, ← Nat.mul_assoc, e3]
      · simp only [significand, if_neg h2, Nat.sub_self, Nat.add_zero]
        norm_num
  · have hlt : m < 2 ^ 53 := by omega
    by_cases hsub : m < 2 ^ 52
    · have hQ0 : Q = 1074 := by
        by_contra hne
        have := hn (by omega)
        omega
      subst hQ0
      constructor
      · rintro ⟨h, _⟩
        omega
      · intro _
        simp only [pack, if_neg h53, if_pos hsub]
        refine ⟨by omega, hsub, ?_, ?_⟩
        · simp only [mag, significand, scale, if_true, Nat.zero_sub, Nat.pow_zero,
            Nat.mul_one]
        · simp only [significand, if_true]
    · constructor
      · rintro ⟨_, h⟩
        rw [if_neg h53] at h
        have : Q - 1073 ≥ 2047 := by omega
        simp only [pack, if_neg h53, if_neg hsub, this, if_true]
      · intro h
        rw [if_neg h53] at h
        have h1 : ¬ (Q - 1073 ≥ 2047) := by omega
        have h2 : Q - 1073 ≠ 0 := by omega
        simp only [pack, if_neg h53, if_neg hsub, if_neg h1]
        have hs : 2 ^ 52 + (m - 2 ^ 52) = m := by omega
        refine ⟨by omega, by omega, ?_, ?_⟩
        · simp only [mag, significand, scale, if_neg h2, hs]
          obtain ⟨j, rfl⟩ : ∃ j, Q = 1074 + j := ⟨Q - 1074, by omega⟩
          have e2 : 1074 + j - 1073 - 1 = j := by omega
          rw [e2, Nat.mul_assoc, ← Nat.pow_add, Nat.add_comm j 1074]
        · simp only [significand, if_neg h2, hs]

end Float64

namespace Float64

/-- Among the multiples of a quantum `P`, one within half a quantum of `V` is nearest to
`V`, and another multiple is as near only on an exact tie. -/
theorem nearest_multiple (m n P V : Nat) (h : 2 * gap (m * P) V ≤ P) :
    gap (m * P) V ≤ gap (n * P) V ∧
      (gap (m * P) V = gap (n * P) V → n * P ≠ m * P → 2 * gap (m * P) V = P) := by
  rcases Nat.lt_trichotomy n m with hlt | heq | hgt
  · have h1 : (n + 1) * P ≤ m * P := Nat.mul_le_mul_right _ hlt
    rw [Nat.add_mul, Nat.one_mul] at h1
    generalize m * P = x at *
    generalize n * P = y at *
    unfold gap at *
    constructor <;> intros <;> omega
  · subst heq
    exact ⟨Nat.le_refl _, fun _ h2 => absurd rfl h2⟩
  · have h1 : (m + 1) * P ≤ n * P := Nat.mul_le_mul_right _ hgt
    rw [Nat.add_mul, Nat.one_mul] at h1
    generalize m * P = x at *
    generalize n * P = y at *
    unfold gap at *
    constructor <;> intros <;> omega

/-- The significand of a finite value fits in 53 bits. -/
theorem significand_lt (f : Float64) (hf : f.frac < 2 ^ 52) : f.significand < 2 ^ 53 := by
  unfold significand
  split <;> omega

/-- A significand `m` at the quantum `2 ^ Q` that is within half a quantum of the
magnitude `V` is at least as near to `V` as every finite float64, and as near as another
one only on an exact tie. Magnitudes are in units of `2 ^ (-2148)`. -/
theorem nearest_float (m Q V : Nat) (h1 : 2 * gap (m * 2 ^ Q) V ≤ 2 ^ Q) (hQ : 1074 ≤ Q)
    (hn : 1074 < Q → 2 ^ 52 ≤ m ∧ 2 ^ (Q + 52) ≤ V)
    (f : Float64) (hf : f.frac < 2 ^ 52) :
    gap (m * 2 ^ Q) V ≤ gap (f.mag * 2 ^ 1074) V ∧
      (gap (m * 2 ^ Q) V = gap (f.mag * 2 ^ 1074) V → f.mag * 2 ^ 1074 ≠ m * 2 ^ Q →
        2 * gap (m * 2 ^ Q) V = 2 ^ Q) := by
  have hsig := significand_lt f hf
  have hy : f.mag * 2 ^ 1074 = f.significand * 2 ^ (f.scale + 1074) := by
    unfold mag
    rw [Nat.mul_assoc, ← Nat.pow_add]
  rw [hy]
  generalize f.significand = sg at *
  generalize hq : f.scale + 1074 = q at *
  by_cases hQq : Q ≤ q
  · obtain ⟨j, rfl⟩ : ∃ j, q = j + Q := ⟨q - Q, by omega⟩
    have e : sg * 2 ^ (j + Q) = (sg * 2 ^ j) * 2 ^ Q := by
      rw [Nat.pow_add, Nat.mul_assoc]
    rw [e]
    exact nearest_multiple m (sg * 2 ^ j) (2 ^ Q) V h1
  · have hQ1 : 1074 < Q := by omega
    obtain ⟨hm52, hV⟩ := hn hQ1
    have hz := (nearest_multiple m (2 ^ 52) (2 ^ Q) V h1).1
    have ez : 2 ^ 52 * 2 ^ Q = 2 ^ (Q + 52) := by
      rw [← Nat.pow_add, Nat.add_comm]
    rw [ez] at hz
    have hylt : sg * 2 ^ q < 2 ^ (Q + 52) := by
      calc sg * 2 ^ q < 2 ^ 53 * 2 ^ q := Nat.mul_lt_mul_of_pos_right hsig (Nat.two_pow_pos q)
        _ = 2 ^ (53 + q) := by rw [← Nat.pow_add]
        _ ≤ 2 ^ (Q + 52) := Nat.pow_le_pow_right (by omega) (by omega)
    generalize m * 2 ^ Q = x at *
    generalize sg * 2 ^ q = y at *
    generalize (2 : Nat) ^ (Q + 52) = z at *
    unfold gap at *
    constructor
    · omega
    · intro h2 _
      omega

/-- Overflow happens exactly from the midpoint between the largest finite value and
`2 ^ 1024` on: the normalised exponent of a significand within half a quantum of `V`
(even on a tie) leaves the finite range if and only if
`V ≥ (2 ^ 54 - 1) * 2 ^ 3118` in units of `2 ^ (-2148)`. -/
theorem overflow_iff (m Q V : Nat) (h1 : 2 * gap (m * 2 ^ Q) V ≤ 2 ^ Q)
    (h2 : 2 * gap (m * 2 ^ Q) V = 2 ^ Q → m % 2 = 0) (hm : m ≤ 2 ^ 53) (hQ : 1074 ≤ Q)
    (hn : 1074 < Q → 2 ^ 52 ≤ m ∧ 2 ^ (Q + 52) ≤ V) (h6 : V < 2 ^ (Q + 53)) :
    (2 ^ 52 ≤ m ∧ 3120 ≤ (if m = 2 ^ 53 then Q + 1 else Q)) ↔
      (2 ^ 54 - 1) * 2 ^ 3118 ≤ V := by
  obtain ⟨c, hc⟩ : ∃ c : Nat, c = 3118 := ⟨_, rfl⟩
  have eT : (2 : Nat) ^ 3118 = 2 ^ c := by rw [hc]
  rw [eT]
  rcases Nat.lt_trichotomy Q (c + 1) with hlt | heq | hgt
  · -- below the top binade: no overflow, and `V` is below the midpoint
    have hV : V < 2 ^ 53 * 2 ^ c := by
      calc V < 2 ^ (Q + 53) := h6
        _ ≤ 2 ^ (53 + c) := Nat.pow_le_pow_right (by omega) (by omega)
        _ = 2 ^ 53 * 2 ^ c := by rw [Nat.pow_add]
    have hnot : ¬ (3120 ≤ (if m = 2 ^ 53 then Q + 1 else Q)) := by
      split <;> omega
    generalize (2 : Nat) ^ c = P at *
    constructor
    · rintro ⟨_, h⟩
      exact absurd h hnot
    · intro h
      omega
  · -- in the top binade: overflow exactly when the significand rounds up to 2 ^ 53
    subst heq
    obtain ⟨hm52, hV⟩ := hn (by omega)
    have eP : (2 : Nat) ^ (c + 1) = 2 * 2 ^ c := by
      rw [Nat.pow_succ, Nat.mul_comm]
    have ex : m * (2 * 2 ^ c) = 2 * (m * 2 ^ c) := by ring
    rw [eP, ex] at h1 h2
    by_cases h53 : m = 2 ^ 53
    · subst h53
      rw [if_pos rfl]
      generalize (2 : Nat) ^ c = P at *
      unfold gap at h1
      constructor
      · intro _
        omega
      · intro _
        exact ⟨by omega, by omega⟩
    · rw [if_neg h53]
      have hle : m ≤ 2 ^ 53 - 1 := by omega
      constructor
      · rintro ⟨_, h⟩
        omega
      · intro hT
        exfalso
        by_cases hodd : m = 2 ^ 53 - 1
        · subst hodd
          have hne : ¬ ((2 ^ 53 - 1) % 2 = 0) := by norm_num
          generalize (2 : Nat) ^ c = P at *
          unfold gap at h1 h2
          apply hne
          apply h2
          omega
        · have hle2 : m ≤ 2 ^ 53 - 2 := by omega
          have hmP2 : m * 2 ^ c ≤ (2 ^ 53 - 2) * 2 ^ c := Nat.mul_le_mul_right _ hle2
          have hPpos := Nat.two_pow_pos c
          generalize (2 : Nat) ^ c = P at *
          generalize m * P = y at *
          unfold gap at h1
          omega
  · -- past the top binade: overflow, and `V` is at least `2 ^ 1024`
    obtain ⟨hm52, hV⟩ := hn (by omega)
    have hV2 : 2 ^ 54 * 2 ^ c ≤ V := by
      calc 2 ^ 54 * 2 ^ c = 2 ^ (54 + c) := by rw [← Nat.pow_add]
        _ ≤ 2 ^ (Q + 52) := Nat.pow_le_pow_right (by omega) (by omega)
        _ ≤ V := hV
    have hyes : 3120 ≤ (if m = 2 ^ 53 then Q + 1 else Q) := by
      split <;> omega
    generalize (2 : Nat) ^ c = P at *
    constructor
    · intro _
      omega
    · intro _
      exact ⟨hm52, hyes⟩

end Float64

namespace Float64

set_option exponentiation.threshold 4000 in
/-- Correct rounding. With `V = M * 2 ^ K` in units of `2 ^ (-2148)`: from the midpoint
between the largest finite value and `2 ^ 1024` on the result is infinity; below it the
result is a finite float64 at least as near to `V` as every finite float64, and where
another one is as near, the result is the one with the even significand. -/
theorem roundPack_nearest (s : Bool) (M K : Nat) :
    ((2 ^ 54 - 1) * 2 ^ 3118 ≤ M * 2 ^ K → roundPack s M K = inf s) ∧
    (M * 2 ^ K < (2 ^ 54 - 1) * 2 ^ 3118 →
      (roundPack s M K).exp < 2047 ∧ (roundPack s M K).frac < 2 ^ 52 ∧
      ∀ f : Float64, f.frac < 2 ^ 52 →
        gap ((roundPack s M K).mag * 2 ^ 1074) (M * 2 ^ K) ≤
            gap (f.mag * 2 ^ 1074) (M * 2 ^ K) ∧
          (gap ((roundPack s M K).mag * 2 ^ 1074) (M * 2 ^ K) =
              gap (f.mag * 2 ^ 1074) (M * 2 ^ K) →
            f.mag ≠ (roundPack s M K).mag → (roundPack s M K).significand % 2 = 0)) := by
  have h54 : 0 < 2 ^ 54 - 1 := by decide
  have hpos := Nat.mul_pos h54 (Nat.two_pow_pos 3118)
  by_cases hM : M = 0
  · subst hM
    generalize (2 ^ 54 - 1) * 2 ^ 3118 = T at *
    have hr : roundPack s 0 K = ⟨s, 0, 0⟩ := by simp [roundPack]
    rw [hr, Nat.zero_mul]
    have h0 : mag ⟨s, 0, 0⟩ = 0 := by simp [mag, significand]
    constructor
    · intro h
      omega
    · intro _
      refine ⟨by show 0 < 2047; omega, Nat.two_pow_pos 52, ?_⟩
      intro f _
      rw [h0, Nat.zero_mul, gap_self]
      refine ⟨Nat.zero_le _, ?_⟩
      intro h hne
      exfalso
      apply hne
      have h1 : f.mag * 2 ^ 1074 = 0 := by
        unfold gap at h
        omega
      rcases Nat.mul_eq_zero.1 h1 with h2 | h2
      · exact h2
      · exact absurd h2 (Nat.ne_of_gt (Nat.two_pow_pos 1074))
  · obtain ⟨Q, hQ⟩ : ∃ Q, Q = max (ilog2 M + K - 52) 1074 := ⟨_, rfl⟩
    obtain ⟨m, hm⟩ : ∃ m, m = if Q ≤ K then M * 2 ^ (K - Q) else roundShift M (Q - K) :=
      ⟨_, rfl⟩
    have hr : roundPack s M K = pack s m Q := by
      unfold roundPack
      rw [if_neg hM]
      simp only [← hQ, ← hm]
    obtain ⟨s1, s2, s3, s4, s5, s6⟩ := scaled_spec M K Q m hM hQ hm
    obtain ⟨p1, p2⟩ := pack_spec s m Q s3 s4 (fun h => (s5 h).1)
    have hov := overflow_iff m Q (M * 2 ^ K) s1 s2 s3 s4 s5 s6
    generalize (2 ^ 54 - 1) * 2 ^ 3118 = T at *
    rw [hr]
    constructor
    · intro h
      exact p1 (hov.2 h)
    · intro h
      have hno : ¬ (2 ^ 52 ≤ m ∧ 3120 ≤ (if m = 2 ^ 53 then Q + 1 else Q)) := by
        intro h2
        have := hov.1 h2
        omega
      obtain ⟨q1, q2, q3, q4⟩ := p2 hno
      refine ⟨q1, q2, ?_⟩
      intro f hf
      obtain ⟨n1, n2⟩ := nearest_float m Q (M * 2 ^ K) s1 s4 s5 f hf
      rw [q3]
      refine ⟨n1, ?_⟩
      intro he hne
      rw [q4]
      apply s2
      apply n2 he
      intro h3
      apply hne
      rw [← q3] at h3
      exact Nat.eq_of_mul_eq_mul_right (Nat.two_pow_pos 1074) h3

end Float64

namespace Float64

/-- The exact product of a significand with the significand of the constant 10, against
ten times the magnitude, for any split `c + 1` and `c + 50` of the two scales. -/
theorem ten_units (sg e c : Nat) :
    sg * (2 ^ 52 + 2 ^ 50) * 2 ^ (e + (c + 1)) = 10 * (sg * 2 ^ e) * 2 ^ (c + 50) := by
  ring

set_option exponentiation.threshold 4000 in
/-- The magnitude of a finite float64 is at most that of the largest one. -/
theorem mag_le_max (f : Float64) (hf : f.exp < 2047) (hf2 : f.frac < 2 ^ 52) :
    f.mag ≤ (2 ^ 53 - 1) * 2 ^ 2045 := by
  have hsig := significand_lt f hf2
  unfold mag scale
  calc f.significand * 2 ^ (f.exp - 1) ≤ (2 ^ 53 - 1) * 2 ^ (f.exp - 1) :=
        Nat.mul_le_mul_right _ (by omega)
    _ ≤ (2 ^ 53 - 1) * 2 ^ 2045 :=
        Nat.mul_le_mul_left _ (Nat.pow_le_pow_right (by omega) (by omega))

set_option exponentiation.threshold 4000 in
/-- The float64 product with the constant 10 is correctly rounded. With magnitudes in
units of `2 ^ (-1074)`: when ten times the magnitude of `a` reaches
`(2 ^ 54 - 1) * 2 ^ 2044` (that is `2 ^ 1024 - 2 ^ 970`) the product is the infinity of the
sign of `a`; below that it is a finite float64 at least as near to ten times `a` as every
finite float64, with the even significand where another one is as near. -/
theorem mul_ten_nearest (a : Float64) (ha : a.exp < 2047) :
    ((2 ^ 54 - 1) * 2 ^ 2044 ≤ 10 * a.mag → mul a (ofNat 10) = inf a.sign) ∧
    (10 * a.mag < (2 ^ 54 - 1) * 2 ^ 2044 →
      (mul a (ofNat 10)).exp < 2047 ∧ (mul a (ofNat 10)).frac < 2 ^ 52 ∧
      ∀ f : Float64, f.frac < 2 ^ 52 →
        gap (mul a (ofNat 10)).mag (10 * a.mag) ≤ gap f.mag (10 * a.mag) ∧
          (gap (mul a (ofNat 10)).mag (10 * a.mag) = gap f.mag (10 * a.mag) →
            f.mag ≠ (mul a (ofNat 10)).mag → (mul a (ofNat 10)).significand % 2 = 0)) := by
  have h10 : (ofNat 10).exp < 2047 := by rw [ofNat_ten]; show 1026 < 2047; omega
  have hsig10 : (ofNat 10).significand = 2 ^ 52 + 2 ^ 50 := by rw [ofNat_ten]; rfl
  have hsc10 : (ofNat 10).scale = 1024 + 1 := by rw [ofNat_ten]; rfl
  have hs10 : (ofNat 10).sign = false := by rw [ofNat_ten]
  have hV : a.significand * (ofNat 10).significand * 2 ^ (a.scale + (ofNat 10).scale) =
      10 * a.mag * 2 ^ 1074 := by
    rw [hsig10, hsc10]
    exact ten_units a.significand a.scale 1024
  have hT : (2 ^ 54 - 1) * 2 ^ 3118 = (2 ^ 54 - 1) * 2 ^ 2044 * 2 ^ 1074 := by
    rw [Nat.mul_assoc, ← Nat.pow_add]
  have hpos := Nat.two_pow_pos 1074
  obtain ⟨r1, r2⟩ := roundPack_nearest (xor a.sign (ofNat 10).sign)
    (a.significand * (ofNat 10).significand) (a.scale + (ofNat 10).scale)
  rw [← mul_finite a (ofNat 10) ha h10, hV, hT] at r1 r2
  rw [hs10, Bool.xor_false] at r1
  generalize mul a (ofNat 10) = r at *
  generalize (2 ^ 54 - 1) * 2 ^ 2044 = T at *
  generalize 10 * a.mag = X at *
  generalize (2 : Nat) ^ 1074 = U at *
  constructor
  · intro h
    exact r1 (Nat.mul_le_mul_right U h)
  · intro h
    obtain ⟨q1, q2, q3⟩ := r2 (Nat.mul_lt_mul_of_pos_right h hpos)
    refine ⟨q1, q2, ?_⟩
    intro f hf
    obtain ⟨n1, n2⟩ := q3 f hf
    rw [gap_mul_right, gap_mul_right] at n1 n2
    refine ⟨Nat.le_of_mul_le_mul_right n1 hpos, ?_⟩
    intro he hne
    exact n2 (by rw [he]) hne

set_option exponentiation.threshold 4000 in
/-- The product with 10 is exact whenever ten times the value is a float64. -/
theorem mul_ten_exact (a f : Float64) (ha : a.exp < 2047) (hf : f.exp < 2047)
    (hf2 : f.frac < 2 ^ 52) (hval : f.mag = 10 * a.mag) :
    (mul a (ofNat 10)).exp < 2047 ∧ (mul a (ofNat 10)).mag = 10 * a.mag := by
  have hmax := mag_le_max f hf hf2
  have hlt : 10 * a.mag < (2 ^ 54 - 1) * 2 ^ 2044 := by
    rw [← hval]
    have e : (2 : Nat) ^ 2045 = 2 * 2 ^ 2044 := by
      rw [show 2045 = 2044 + 1 from rfl, Nat.pow_succ, Nat.mul_comm]
    rw [e] at hmax
    have := Nat.two_pow_pos 2044
    generalize (2 : Nat) ^ 2044 = P at *
    omega
  obtain ⟨q1, _, q3⟩ := (mul_ten_nearest a ha).2 hlt
  have h := (q3 f hf2).1
  rw [hval, gap_self] at h
  refine ⟨q1, ?_⟩
  unfold gap at h
  omega

end Float64

namespace Float64

/-- Finite means an exponent field below all ones and a fraction within 52 bits. -/
theorem isFinite_iff (f : Float64) : f.isFinite = true ↔ f.exp < 2047 ∧ f.frac < 2 ^ 52 := by
  simp [isFinite]

/-- Ten times an infinity is that infinity. -/
theorem mul_ten_inf (a : Float64) (h : a.isInf = true) : mul a (ofNat 10) = inf a.sign := by
  have hn : a.isNaN = false := by
    simp only [isInf, Bool.and_eq_true, beq_iff_eq] at h
    simp [isNaN, h.2]
  have hz : a.isZero = false := by
    simp only [isInf, Bool.and_eq_true, beq_iff_eq] at h
    simp [isZero, h.1]
  have h10 : (ofNat 10).isNaN = false := by decide
  have h10z : (ofNat 10).isZero = false := by decide
  have h10s : (ofNat 10).sign = false := by decide
  simp [mul, h, hn, hz, h10, h10z, h10s]

/-- Ten times a NaN is a NaN. -/
theorem mul_ten_nan (a : Float64) (h : a.isNaN = true) : (mul a (ofNat 10)).isNaN = true := by
  have e : mul a (ofNat 10) = nan := by
    unfold mul
    rw [h, Bool.true_or, if_pos rfl]
  rw [e]
  decide

end Float64

/-- A non-empty list of characters takes at least one byte. -/
theorem utf8ByteSize_go_pos (c : Char) (cs : List Char) :
    0 < String.utf8ByteSize.go (c :: cs) := by
  have h := Char.utf8Size_pos c
  simp only [String.utf8ByteSize.go]
  omega

/-- A Go string has positive length exactly when it is not the empty string. -/
theorem len_pos_iff (s : String) : 0 < len s ↔ s ≠ "" := by
  cases s with
  | mk data =>
    cases data with
    | nil => simp [len, String.utf8ByteSize, String.utf8ByteSize.go]
    | cons c cs =>
      constructor
      · intro _ h
        have h2 := congrArg String.data h
        simp at h2
      · intro _
        exact utf8ByteSize_go_pos c cs

/-- A string other than the empty one has positive length. -/
theorem len_pos_of_ne {s : String} (h : s ≠ "") : len s > 0 := (len_pos_iff s).2 h

/-- The empty string has no positive length. -/
theorem len_not_pos_of_eq {s : String} (h : s = "") : ¬ len s > 0 := by
  intro hp
  exact (len_pos_iff s).1 hp h

/-- The payee chain of `handler` finds no payee exactly when all three names are empty. -/
theorem payee_chain_none {m c d : String} (h : m = "" ∧ c = "" ∧ d = "") :
    (if len m > 0 then some m else if len c > 0 then some c
      else if len d > 0 then some d else none) = none := by
  simp [len_not_pos_of_eq h.1, len_not_pos_of_eq h.2.1, len_not_pos_of_eq h.2.2]

/-- The payee chain of `handler` finds a payee as soon as one of the three names is not
empty. -/
theorem payee_chain_some {m c d : String} (h : ¬ (m = "" ∧ c = "" ∧ d = "")) :
    ∃ p, (if len m > 0 then some m else if len c > 0 then some c
      else if len d > 0 then some d else none) = some p := by
  by_cases hm : m = ""
  · by_cases hc : c = ""
    · have hd : d ≠ "" := fun hd => h ⟨hm, hc, hd⟩
      exact ⟨d, by simp [len_not_pos_of_eq hm, len_not_pos_of_eq hc, len_pos_of_ne hd]⟩
    · exact ⟨c, by simp [len_not_pos_of_eq hm, len_pos_of_ne hc]⟩
  · exact ⟨m, by simp [len_pos_of_ne hm]⟩

/-- An outbound exchange recorded in a trace is among its `posts`. -/
theorem mem_posts_of_mem {client : Client} {req : Request} {res : Result Response} :
    ∀ {t : List Event}, Event.clientDo client req res ∈ t → (client, req, res) ∈ posts t
  | [], h => by simp at h
  | ev :: t, h => by
    rcases List.mem_cons.1 h with h1 | h1
    · subst h1
      simp [posts]
    · have ih := mem_posts_of_mem h1
      cases ev with
      | clientDo c r x => exact List.mem_cons_of_mem _ ih
      | setDSN => exact ih
      | log l => exact ih
      | capture e tg => exact ih
      | capturePanic v => exact ih

/-- The two `req.Header.Set` statements of `handler` on a fresh request. -/
theorem headerSet_authorization_contentType (method url body v : String) :
    ((({ Method := method, URL := url, Header := [], Body := body } : Request).headerSet
        "Authorization" v).headerSet "Content-Type" "application/json") =
      { Method := method, URL := url,
        Header := [("Authorization", v), ("Content-Type", "application/json")],
        Body := body } := by
  have hk : ("Authorization" != "Content-Type") = true := by decide
  simp [Request.headerSet, Header.Set, hk]

/-- The loop of `init` over the five values ends normally when none is empty, without a
report and without a handler invocation. -/
theorem init_of_complete (cfg : Config) (h : cfg.complete) :
    (init cfg).outcome = .returned () ∧ captures (init cfg).trace = [] ∧
      handlerRuns (init cfg).trace = [] := by
  obtain ⟨h1, h2, h3, h4, h5⟩ := h
  simp [init, initLoop, h1, h2, h3, h4, h5, captures, handlerRuns]

/-- The loop of `init` over the five values panics at the first empty one, right after
reporting it, and no handler invocation is among its effects. -/
theorem init_of_incomplete (cfg : Config) (h : ¬ cfg.complete) :
    (init cfg).outcome = .panicked (.err (errorsNew "Could not load environmental vars")) ∧
      captures (init cfg).trace = [(errorsNew "Could not load environmental vars", none)] ∧
      (init cfg).trace.getLast? =
        some (.capture (errorsNew "Could not load environmental vars") none) ∧
      handlerRuns (init cfg).trace = [] := by
  unfold Config.complete at h
  by_cases h1 : cfg.MonzoAccountID = ""
  · simp [init, initLoop, h1, captures, handlerRuns]
  · by_cases h2 : cfg.YnabAccountID = ""
    · simp [init, initLoop, h1, h2, captures, handlerRuns]
    · by_cases h3 : cfg.YnabAPIKey = ""
      · simp [init, initLoop, h1, h2, h3, captures, handlerRuns]
      · by_cases h4 : cfg.YnabBaseURL = ""
        · simp [init, initLoop, h1, h2, h3, h4, captures, handlerRuns]
        · by_cases h5 : cfg.YnabBudgetID = ""
          · simp [init, initLoop, h1, h2, h3, h4, h5, captures, handlerRuns]
          · exact absurd ⟨h1, h2, h3, h4, h5⟩ h

/-! ## The claims -/

/-- C1. For every parsed notification whose account id matches the configured Monzo
account id, the payee of the outbound transaction that `handler` builds is the merchant
name if that is non-empty, otherwise the counterparty name if that is non-empty,
otherwise the description if that is non-empty. -/
theorem payee_priority (lib : Lib) (cfg : Config) (request : APIGatewayProxyRequest)
    (raw : MonzoTransaction) (hparse : lib.jsonUnmarshal request.Body = .ok raw)
    (hacc : raw.Data.AccountID = cfg.MonzoAccountID) :
    (raw.Data.Merchant.Name ≠ "" →
      (builtTransactions (handler lib cfg request).trace).map YNABTransaction.Payee
        = [raw.Data.Merchant.Name]) ∧
    (raw.Data.Merchant.Name = "" → raw.Data.Counterparty.Name ≠ "" →
      (builtTransactions (handler lib cfg request).trace).map YNABTransaction.Payee
        = [raw.Data.Counterparty.Name]) ∧
    (raw.Data.Merchant.Name = "" → raw.Data.Counterparty.Name = "" →
      raw.Data.Description ≠ "" →
      (builtTransactions (handler lib cfg request).trace).map YNABTransaction.Payee
        = [raw.Data.Description]) := by
  refine ⟨?_, ?_, ?_⟩
  · intro hm
    simp only [handler, hparse, hacc, if_true, len_pos_of_ne hm]
    cases lib.jsonMarshal _ with
    | error e => simp [builtTransactions]
    | ok bytes =>
      simp only [newRequest]
      cases lib.newRequestError _ _ with
      | some e => simp [builtTransactions]
      | none =>
        simp only []
        cases lib.clientDo _ _ <;> simp [builtTransactions]
  · intro hm hc
    simp only [handler, hparse, hacc, if_true, len_not_pos_of_eq hm, if_false,
      len_pos_of_ne hc]
    cases lib.jsonMarshal _ with
    | error e => simp [builtTransactions]
    | ok bytes =>
      simp only [newRequest]
      cases lib.newRequestError _ _ with
      | some e => simp [builtTransactions]
      | none =>
        simp only []
        cases lib.clientDo _ _ <;> simp [builtTransactions]
  · intro hm hc hd
    simp only [handler, hparse, hacc, if_true, len_not_pos_of_eq hm, if_false,
      len_not_pos_of_eq hc, len_pos_of_ne hd]
    cases lib.jsonMarshal _ with
    | error e => simp [builtTransactions]
    | ok bytes =>
      simp only [newRequest]
      cases lib.newRequestError _ _ with
      | some e => simp [builtTransactions]
      | none =>
        simp only []
        cases lib.clientDo _ _ <;> simp [builtTransactions]

set_option maxRecDepth 100000 in
/-- Witness for C1 on three sample bodies: merchant "Tesco", counterparty "Jane" and
description "groceries" give payee "Tesco"; counterparty "Jane" and description
"groceries" give "Jane"; the description "groceries" alone gives "groceries". -/
theorem payee_priority_witness :
    (builtTransactions (handler (sampleLib downstreamOK) sampleConfig
        (sampleRequest tescoBody)).trace).map YNABTransaction.Payee = ["Tesco"] ∧
    (builtTransactions (handler (sampleLib downstreamOK) sampleConfig
        (sampleRequest janeBody)).trace).map YNABTransaction.Payee = ["Jane"] ∧
    (builtTransactions (handler (sampleLib downstreamOK) sampleConfig
        (sampleRequest groceriesBody)).trace).map YNABTransaction.Payee = ["groceries"] :=
  ⟨(payee_priority (sampleLib downstreamOK) sampleConfig (sampleRequest tescoBody)
      (sampleRaw "acc_123" (Float64.ofNat 250) "groceries" "Jane" "tx_2" "Tesco")
      (by decide) (by decide)).1 (by decide),
   (payee_priority (sampleLib downstreamOK) sampleConfig (sampleRequest janeBody)
      (sampleRaw "acc_123" (Float64.ofInt (-150)) "groceries" "Jane" "tx_3" "")
      (by decide) (by decide)).2.1 (by decide) (by decide),
   (payee_priority (sampleLib downstreamOK) sampleConfig (sampleRequest groceriesBody)
      (sampleRaw "acc_123" (Float64.ofNat 250) "groceries" "" "tx_4" "")
      (by decide) (by decide)).2.2 (by decide) (by decide) (by decide)⟩

set_option maxRecDepth 100000 in
set_option exponentiation.threshold 4000 in
/-- C2 as stated fails. The sample body whose amount is the integer 9007199254740991
parses, matches the configured account and has a description; ten times that amount,
90071992547409910, is not a float64 value, and the amount of the transaction built is
90071992547409904. Values are compared exactly, as signed numbers of units of
`2 ^ (-1074)`. -/
theorem amount_scaled_counterexample :
    ¬ (∀ (lib : Lib) (cfg : Config) (request : APIGatewayProxyRequest)
        (raw : MonzoTransaction) (u : Int),
        lib.jsonUnmarshal request.Body = .ok raw →
        raw.Data.AccountID = cfg.MonzoAccountID →
        ¬ (raw.Data.Merchant.Name = "" ∧ raw.Data.Counterparty.Name = "" ∧
          raw.Data.Description = "") →
        raw.Data.Amount.units = some u →
        ∀ t ∈ builtTransactions (handler lib cfg request).trace,
          t.Amount.units = some (10 * u)) := by
  intro h
  have h1 := h (sampleLib downstreamOK) sampleConfig (sampleRequest bigOddBody)
    (sampleRaw "acc_123" (Float64.ofNat 9007199254740991) "Coffee Shop" "" "tx_8" "")
    ((9007199254740991 * 2 ^ 1074 : Nat) : Int)
    (by decide) (by decide) (by decide) (by decide)
    ⟨"ynab_acc", "2020-01-01T00:00:00Z", Float64.ofNat 90071992547409904, "Coffee Shop",
      "cleared", "tx_8"⟩ (by decide)
  revert h1
  decide

/-- C2, amended. For every parsed notification that passes the account check and the
payee check, the amount of the outbound transaction `handler` builds is the float64
product of the inbound amount and 10, with the sign of the inbound amount. For a finite
inbound amount, with magnitudes counted in units of `2 ^ (-1074)`: once ten times its
magnitude reaches `(2 ^ 54 - 1) * 2 ^ 2044`, that is `2 ^ 1024 - 2 ^ 970`, the outbound
amount is the infinity of that sign; below that it is a finite float64 at least as near
to ten times the inbound amount as every finite float64, the one with the even
significand where another is as near; and it is exactly ten times the inbound amount
whenever that is a float64 value, in particular for every inbound integer `n` with
`10 * |n| < 2 ^ 53`. An infinite inbound amount gives that infinity, a NaN a NaN. -/
theorem amount_scaled (lib : Lib) (cfg : Config) (request : APIGatewayProxyRequest)
    (raw : MonzoTransaction) (hparse : lib.jsonUnmarshal request.Body = .ok raw)
    (hacc : raw.Data.AccountID = cfg.MonzoAccountID)
    (hpayee : ¬ (raw.Data.Merchant.Name = "" ∧ raw.Data.Counterparty.Name = "" ∧
      raw.Data.Description = "")) :
    (builtTransactions (handler lib cfg request).trace).map YNABTransaction.Amount =
        [Float64.mul raw.Data.Amount (Float64.ofNat 10)] ∧
      (raw.Data.Amount.isNaN = false →
        ∀ t ∈ builtTransactions (handler lib cfg request).trace,
          t.Amount.sign = raw.Data.Amount.sign ∧ t.Amount.isNaN = false) ∧
      (raw.Data.Amount.exp < 2047 →
        ∀ t ∈ builtTransactions (handler lib cfg request).trace,
          ((2 ^ 54 - 1) * 2 ^ 2044 ≤ 10 * raw.Data.Amount.mag →
            t.Amount = Float64.inf raw.Data.Amount.sign) ∧
          (10 * raw.Data.Amount.mag < (2 ^ 54 - 1) * 2 ^ 2044 →
            t.Amount.isFinite = true ∧
            ∀ f : Float64, f.isFinite = true →
              Float64.gap t.Amount.mag (10 * raw.Data.Amount.mag) ≤
                  Float64.gap f.mag (10 * raw.Data.Amount.mag) ∧
                (Float64.gap t.Amount.mag (10 * raw.Data.Amount.mag) =
                    Float64.gap f.mag (10 * raw.Data.Amount.mag) →
                  f.mag ≠ t.Amount.mag → t.Amount.significand % 2 = 0)) ∧
          (∀ f : Float64, f.isFinite = true → f.mag = 10 * raw.Data.Amount.mag →
            t.Amount.isFinite = true ∧ t.Amount.mag = 10 * raw.Data.Amount.mag)) ∧
      (∀ n : Int, 10 * n.natAbs < 2 ^ 53 → raw.Data.Amount = Float64.ofInt n →
        ∀ t ∈ builtTransactions (handler lib cfg request).trace,
          t.Amount = Float64.ofInt (10 * n) ∧ t.Amount.toInt = some (10 * n)) ∧
      (raw.Data.Amount.isInf = true →
        ∀ t ∈ builtTransactions (handler lib cfg request).trace,
          t.Amount = Float64.inf raw.Data.Amount.sign) ∧
      (raw.Data.Amount.isNaN = true →
        ∀ t ∈ builtTransactions (handler lib cfg request).trace,
          t.Amount.isNaN = true) := by
  obtain ⟨p, hp⟩ := payee_chain_some hpayee
  have hb : builtTransactions (handler lib cfg request).trace =
      [⟨cfg.YnabAccountID, raw.Data.Created, Float64.mul raw.Data.Amount (Float64.ofNat 10),
        p, "cleared", raw.Data.TransactionID⟩] := by
    simp only [handler, hparse, hacc, if_true, hp]
    cases lib.jsonMarshal _ with
    | error e => simp [builtTransactions]
    | ok bytes =>
      simp only [newRequest]
      cases lib.newRequestError _ _ with
      | some e => simp [builtTransactions]
      | none =>
        simp only []
        cases lib.clientDo _ _ <;> simp [builtTransactions]
  have hfin : ∀ f : Float64, f.isFinite = true → f.exp < 2047 ∧ f.frac < 2 ^ 52 :=
    fun f hf => (Float64.isFinite_iff f).1 hf
  rw [hb]
  refine ⟨rfl, ?_, ?_, ?_, ?_, ?_⟩
  · intro hnan t ht
    rw [List.mem_singleton] at ht
    subst ht
    exact Float64.mul_ten_sign _ hnan
  · intro hexp t ht
    rw [List.mem_singleton] at ht
    subst ht
    obtain ⟨r1, r2⟩ := Float64.mul_ten_nearest raw.Data.Amount hexp
    refine ⟨r1, ?_, ?_⟩
    · intro hlt
      obtain ⟨q1, q2, q3⟩ := r2 hlt
      refine ⟨(Float64.isFinite_iff _).2 ⟨q1, q2⟩, ?_⟩
      intro f hf
      exact q3 f (hfin f hf).2
    · intro f hf hval
      obtain ⟨q1, q2⟩ := Float64.mul_ten_exact raw.Data.Amount f hexp (hfin f hf).1
        (hfin f hf).2 hval
      have hlt : 10 * raw.Data.Amount.mag < (2 ^ 54 - 1) * 2 ^ 2044 := by
        by_contra hge
        have hinf := r1 (Nat.le_of_not_lt hge)
        rw [hinf] at q1
        exact absurd q1 (by show ¬ (2047 < 2047); omega)
      exact ⟨(Float64.isFinite_iff _).2 ⟨q1, (r2 hlt).2.1⟩, q2⟩
  · intro n hn hraw t ht
    rw [List.mem_singleton] at ht
    subst ht
    have hmul := Float64.mul_ofInt_ten n hn
    have hto := Float64.toInt_ofInt (10 * n) (by omega)
    simp only [hraw, hmul, hto, and_self]
  · intro hinf t ht
    rw [List.mem_singleton] at ht
    subst ht
    exact Float64.mul_ten_inf _ hinf
  · intro hnan t ht
    rw [List.mem_singleton] at ht
    subst ht
    exact Float64.mul_ten_nan _ hnan

set_option maxRecDepth 100000 in
set_option exponentiation.threshold 4000 in
/-- Witness for the amended C2 on sample bodies: inbound 250 gives outbound 2500, inbound
150 gives outbound 1500 and inbound -150 gives outbound -1500, exactly; the inbound JSON
number `1e308` gives `+Inf`; and inbound 9007199254740991 gives a finite amount that is
at least as near to 90071992547409910 as the float64 90071992547409920. -/
theorem amount_scaled_witness :
    (builtTransactions (handler (sampleLib downstreamOK) sampleConfig
        (sampleRequest tescoBody)).trace).map YNABTransaction.Amount = [Float64.ofNat 2500] ∧
    (builtTransactions (handler (sampleLib downstreamOK) sampleConfig
        (sampleRequest coffeeBody)).trace).map YNABTransaction.Amount = [Float64.ofNat 1500] ∧
    (builtTransactions (handler (sampleLib downstreamOK) sampleConfig
        (sampleRequest janeBody)).trace).map YNABTransaction.Amount = [Float64.ofInt (-1500)] ∧
    Float64.toInt (Float64.ofNat 2500) = some 2500 ∧
    Float64.toInt (Float64.ofInt (-1500)) = some (-1500) ∧
    Float64.mul (Float64.ofNat (10 ^ 308)) (Float64.ofNat 10) = Float64.inf false ∧
    Float64.gap (Float64.ofNat 90071992547409904).mag
        (10 * (Float64.ofNat 9007199254740991).mag) ≤
      Float64.gap (Float64.ofNat 90071992547409920).mag
        (10 * (Float64.ofNat 9007199254740991).mag) :=
  ⟨(amount_scaled (sampleLib downstreamOK) sampleConfig (sampleRequest tescoBody)
      (sampleRaw "acc_123" (Float64.ofNat 250) "groceries" "Jane" "tx_2" "Tesco")
      (by decide) (by decide) (by decide)).1.trans (by decide),
   (amount_scaled (sampleLib downstreamOK) sampleConfig (sampleRequest coffeeBody)
      (sampleRaw "acc_123" (Float64.ofNat 150) "Coffee Shop" "" "tx_1" "")
      (by decide) (by decide) (by decide)).1.trans (by decide),
   (amount_scaled (sampleLib downstreamOK) sampleConfig (sampleRequest janeBody)
      (sampleRaw "acc_123" (Float64.ofInt (-150)) "groceries" "Jane" "tx_3" "")
      (by decide) (by decide) (by decide)).1.trans (by decide),
   by decide, by decide,
   ((amount_scaled (sampleLib downstreamOK) sampleConfig (sampleRequest hugeBody)
      (sampleRaw "acc_123" (Float64.ofNat (10 ^ 308)) "Coffee Shop" "" "tx_7" "")
      (by decide) (by decide) (by decide)).2.2.1 (by decide)
      ⟨"ynab_acc", "2020-01-01T00:00:00Z",
        Float64.mul (Float64.ofNat (10 ^ 308)) (Float64.ofNat 10), "Coffee Shop",
        "cleared", "tx_7"⟩ (by decide)).1 (by decide),
   ((((amount_scaled (sampleLib downstreamOK) sampleConfig (sampleRequest bigOddBody)
      (sampleRaw "acc_123" (Float64.ofNat 9007199254740991) "Coffee Shop" "" "tx_8" "")
      (by decide) (by decide) (by decide)).2.2.1 (by decide)
      ⟨"ynab_acc", "2020-01-01T00:00:00Z", Float64.ofNat 90071992547409904, "Coffee Shop",
        "cleared", "tx_8"⟩ (by decide)).2.1 (by decide)).2
      (Float64.ofNat 90071992547409920) (by decide)).1⟩

/-- C3. For every parsed notification for which `handler` builds an outbound transaction,
its `import_id` is the inbound transaction id, its `date` is the inbound `created` string,
its `cleared` field is the constant "cleared" and its `account_id` is the configured YNAB
account id. -/
theorem fields_verbatim (lib : Lib) (cfg : Config) (request : APIGatewayProxyRequest)
    (raw : MonzoTransaction) (t : YNABTransaction)
    (hparse : lib.jsonUnmarshal request.Body = .ok raw)
    (hbuilt : t ∈ builtTransactions (handler lib cfg request).trace) :
    t.ImportID = raw.Data.TransactionID ∧ t.Date = raw.Data.Created ∧
      t.Cleared = "cleared" ∧ t.AccountID = cfg.YnabAccountID := by
  by_cases hacc : raw.Data.AccountID = cfg.MonzoAccountID
  · by_cases hall : raw.Data.Merchant.Name = "" ∧ raw.Data.Counterparty.Name = "" ∧
        raw.Data.Description = ""
    · simp [handler, hparse, hacc, payee_chain_none hall, builtTransactions] at hbuilt
    · obtain ⟨p, hp⟩ := payee_chain_some hall
      simp only [handler, hparse, hacc, if_true, hp] at hbuilt
      revert hbuilt
      cases lib.jsonMarshal _ with
      | error e =>
        simp only [List.cons_append, List.nil_append, builtTransactions, List.mem_singleton]
        intro h; subst h; exact ⟨rfl, rfl, rfl, rfl⟩
      | ok bytes =>
        simp only [newRequest]
        cases lib.newRequestError _ _ with
        | some e =>
          simp only [List.cons_append, List.nil_append, builtTransactions, List.mem_singleton]
          intro h; subst h; exact ⟨rfl, rfl, rfl, rfl⟩
        | none =>
          simp only []
          cases lib.clientDo _ _ <;>
          · simp only [List.cons_append, List.nil_append, builtTransactions,
              List.mem_singleton]
            intro h; subst h; exact ⟨rfl, rfl, rfl, rfl⟩
  · simp [handler, hparse, hacc, builtTransactions] at hbuilt

set_option maxRecDepth 100000 in
/-- Witness for C3 on the end-to-end body of the specification: the transaction built
has the import id "tx_1", the date "2020-01-01T00:00:00Z", cleared "cleared" and the
configured account. -/
theorem fields_verbatim_witness :
    (⟨"ynab_acc", "2020-01-01T00:00:00Z", Float64.ofNat 1500, "Coffee Shop", "cleared",
        "tx_1"⟩ : YNABTransaction) ∈
      builtTransactions (handler (sampleLib downstreamOK) sampleConfig
        (sampleRequest coffeeBody)).trace ∧
    ("tx_1" = "tx_1" ∧ "2020-01-01T00:00:00Z" = "2020-01-01T00:00:00Z" ∧
      "cleared" = "cleared" ∧ "ynab_acc" = "ynab_acc") :=
  ⟨by decide,
   fields_verbatim (sampleLib downstreamOK) sampleConfig (sampleRequest coffeeBody)
    (sampleRaw "acc_123" (Float64.ofNat 150) "Coffee Shop" "" "tx_1" "")
    ⟨"ynab_acc", "2020-01-01T00:00:00Z", Float64.ofNat 1500, "Coffee Shop", "cleared", "tx_1"⟩
    (by decide) (by decide)⟩

/-- C4. For every request body that parses as a notification whose account id differs
from the configured Monzo account id, `handler` returns status 500 with body
"Invalid Monzo account ID" and a non-nil error, whatever the merchant, counterparty and
description are; it reports that error with the request body, builds no transaction and
makes no outbound POST. -/
theorem account_filter (lib : Lib) (cfg : Config) (request : APIGatewayProxyRequest)
    (raw : MonzoTransaction) (hparse : lib.jsonUnmarshal request.Body = .ok raw)
    (hacc : raw.Data.AccountID ≠ cfg.MonzoAccountID) :
    (handler lib cfg request).outcome =
        .returned ({ StatusCode := 500, Body := "Invalid Monzo account ID" },
          some (errorsNew "Invalid Monzo account ID")) ∧
      posts (handler lib cfg request).trace = [] ∧
      builtTransactions (handler lib cfg request).trace = [] ∧
      captures (handler lib cfg request).trace =
        [(errorsNew "Invalid Monzo account ID", some [("request", request.Body)])] := by
  simp [handler, hparse, hacc, posts, builtTransactions, captures, requestTags]

set_option maxRecDepth 100000 in
/-- Witness for C4: the sample body for account "acc_999", which names the merchant
"Tesco", is rejected under the configuration for "acc_123". -/
theorem account_filter_witness :
    (handler (sampleLib downstreamOK) sampleConfig (sampleRequest otherAccountBody)).outcome =
        .returned ({ StatusCode := 500, Body := "Invalid Monzo account ID" },
          some (errorsNew "Invalid Monzo account ID")) ∧
      posts (handler (sampleLib downstreamOK) sampleConfig
        (sampleRequest otherAccountBody)).trace = [] ∧
      builtTransactions (handler (sampleLib downstreamOK) sampleConfig
        (sampleRequest otherAccountBody)).trace = [] ∧
      captures (handler (sampleLib downstreamOK) sampleConfig
        (sampleRequest otherAccountBody)).trace =
        [(errorsNew "Invalid Monzo account ID", some [("request", otherAccountBody)])] :=
  account_filter (sampleLib downstreamOK) sampleConfig (sampleRequest otherAccountBody)
    (sampleRaw "acc_999" (Float64.ofNat 250) "groceries" "" "tx_5" "Tesco")
    (by decide) (by decide)

/-- C5. For every request body that parses as a notification whose account id matches the
configured Monzo account id: if merchant name, counterparty name and description are all
empty, `handler` returns status 500 with body "No payee data found" and a non-nil error,
and makes no outbound POST; conversely it returns status 500 with body
"No payee data found" only if all three are empty. -/
theorem missing_payee (lib : Lib) (cfg : Config) (request : APIGatewayProxyRequest)
    (raw : MonzoTransaction) (hparse : lib.jsonUnmarshal request.Body = .ok raw)
    (hacc : raw.Data.AccountID = cfg.MonzoAccountID) :
    ((raw.Data.Merchant.Name = "" ∧ raw.Data.Counterparty.Name = "" ∧
        raw.Data.Description = "") →
      (handler lib cfg request).outcome =
          .returned ({ StatusCode := 500, Body := "No payee data found" },
            some (errorsNew "No payee data found")) ∧
        posts (handler lib cfg request).trace = [] ∧
        captures (handler lib cfg request).trace =
          [(errorsNew "No payee data found", some [("request", request.Body)])]) ∧
    (∀ err : Option Error,
      (handler lib cfg request).outcome =
          .returned ({ StatusCode := 500, Body := "No payee data found" }, err) →
      raw.Data.Merchant.Name = "" ∧ raw.Data.Counterparty.Name = "" ∧
        raw.Data.Description = "") := by
  constructor
  · intro hall
    simp [handler, hparse, hacc, payee_chain_none hall, posts, captures, requestTags]
  · intro err hout
    by_contra hall
    obtain ⟨p, hp⟩ := payee_chain_some hall
    have hne : ("" : String) ≠ "No payee data found" := by decide
    simp only [handler, hparse, hacc, if_true, hp] at hout
    revert hout
    cases lib.jsonMarshal _ with
    | error e => simp [hne]
    | ok bytes =>
      simp only [newRequest]
      cases lib.newRequestError _ _ with
      | some e => simp
      | none =>
        simp only []
        cases lib.clientDo _ _ <;> simp [hne]

set_option maxRecDepth 100000 in
/-- Witness for C5: the sample body without merchant, counterparty and description gets
the "No payee data found" response, and the end-to-end body, whose response is another
one, has a non-empty description. -/
theorem missing_payee_witness :
    ((handler (sampleLib downstreamOK) sampleConfig (sampleRequest noPayeeBody)).outcome =
          .returned ({ StatusCode := 500, Body := "No payee data found" },
            some (errorsNew "No payee data found")) ∧
        posts (handler (sampleLib downstreamOK) sampleConfig
          (sampleRequest noPayeeBody)).trace = [] ∧
        captures (handler (sampleLib downstreamOK) sampleConfig
          (sampleRequest noPayeeBody)).trace =
          [(errorsNew "No payee data found", some [("request", noPayeeBody)])]) ∧
    ((sampleRaw "acc_123" (Float64.ofNat 250) "" "" "tx_6" "").Data.Merchant.Name = "" ∧
      (sampleRaw "acc_123" (Float64.ofNat 250) "" "" "tx_6" "").Data.Counterparty.Name = "" ∧
      (sampleRaw "acc_123" (Float64.ofNat 250) "" "" "tx_6" "").Data.Description = "") :=
  ⟨(missing_payee (sampleLib downstreamOK) sampleConfig (sampleRequest noPayeeBody)
      (sampleRaw "acc_123" (Float64.ofNat 250) "" "" "tx_6" "")
      (by decide) (by decide)).1 (by decide),
   (missing_payee (sampleLib downstreamOK) sampleConfig (sampleRequest noPayeeBody)
      (sampleRaw "acc_123" (Float64.ofNat 250) "" "" "tx_6" "")
      (by decide) (by decide)).2 (some (errorsNew "No payee data found")) (by decide)⟩

/-- C6. For every parsed notification with matching account id and at least one non-empty
payee field, if the outbound POST completes with downstream status line S and response
body B (whatever S is), `handler` returns status 200, body
"POST status: " ++ S ++ " - " ++ B, and a nil error. -/
theorem success_response (lib : Lib) (cfg : Config) (request : APIGatewayProxyRequest)
    (raw : MonzoTransaction) (client : Client) (req : Request) (resp : Response)
    (hparse : lib.jsonUnmarshal request.Body = .ok raw)
    (hacc : raw.Data.AccountID = cfg.MonzoAccountID)
    (hpayee : ¬ (raw.Data.Merchant.Name = "" ∧ raw.Data.Counterparty.Name = "" ∧
      raw.Data.Description = ""))
    (hpost : Event.clientDo client req (.ok resp) ∈ (handler lib cfg request).trace) :
    (handler lib cfg request).outcome =
      .returned ({ StatusCode := 200,
                   Body := "POST status: " ++ resp.Status ++ " - " ++ resp.Body }, none) := by
  obtain ⟨p, hp⟩ := payee_chain_some hpayee
  simp only [handler, hparse, hacc, if_true, hp] at hpost ⊢
  revert hpost
  cases lib.jsonMarshal _ with
  | error e => simp
  | ok bytes =>
    simp only [newRequest]
    cases lib.newRequestError _ _ with
    | some e => simp
    | none =>
      simp only []
      cases lib.clientDo _ _ with
      | error e => simp
      | ok r =>
        simp only [List.cons_append, List.nil_append, List.mem_cons, List.mem_singleton,
          reduceCtorEq, false_or, or_false, Event.clientDo.injEq, Result.ok.injEq,
          List.not_mem_nil]
        rintro ⟨_, _, h⟩
        subst h
        rfl

set_option maxRecDepth 100000 in
/-- Witness for C6: the end-to-end body of the specification with a downstream answer
`200 OK` / `ok` gives status 200 and body "POST status: 200 OK - ok"; with a downstream
answer `400 Bad Request` / `bad` it gives status 200 and body
"POST status: 400 Bad Request - bad". -/
theorem success_response_witness :
    (handler (sampleLib downstreamOK) sampleConfig (sampleRequest coffeeBody)).outcome =
      .returned ({ StatusCode := 200, Body := "POST status: 200 OK - ok" }, none) ∧
    (handler (sampleLib downstreamBadRequest) sampleConfig (sampleRequest coffeeBody)).outcome =
      .returned ({ StatusCode := 200, Body := "POST status: 400 Bad Request - bad" }, none) :=
  ⟨success_response (sampleLib downstreamOK) sampleConfig (sampleRequest coffeeBody)
      (sampleRaw "acc_123" (Float64.ofNat 150) "Coffee Shop" "" "tx_1" "") ⟨5⟩
      ⟨"POST", "https://api.youneedabudget.com/v1/budgets/budget_1/transactions",
        [("Authorization", "Bearer key"), ("Content-Type", "application/json")],
        "\x7b\"transaction\":\x7b\"account_id\":\"ynab_acc\",\"date\":\"2020-01-01T00:00:00Z\",\"amount\":1500,\"payee_name\":\"Coffee Shop\",\"cleared\":\"cleared\",\"import_id\":\"tx_1\"\x7d\x7d"⟩
      ⟨"200 OK", "ok"⟩ (by decide) (by decide) (by decide) (by decide),
   success_response (sampleLib downstreamBadRequest) sampleConfig (sampleRequest coffeeBody)
      (sampleRaw "acc_123" (Float64.ofNat 150) "Coffee Shop" "" "tx_1" "") ⟨5⟩
      ⟨"POST", "https://api.youneedabudget.com/v1/budgets/budget_1/transactions",
        [("Authorization", "Bearer key"), ("Content-Type", "application/json")],
        "\x7b\"transaction\":\x7b\"account_id\":\"ynab_acc\",\"date\":\"2020-01-01T00:00:00Z\",\"amount\":1500,\"payee_name\":\"Coffee Shop\",\"cleared\":\"cleared\",\"import_id\":\"tx_1\"\x7d\x7d"⟩
      ⟨"400 Bad Request", "bad"⟩ (by decide) (by decide) (by decide) (by decide)⟩

/-- C8. In every run of `handler` at most one outbound POST is attempted, and each
recorded attempt is a POST under the 5 second timeout together with exactly what
`client.Do` answered to it. For every parsed notification that passes the account check
and the payee check (payee `p`), once the envelope serializes to `bytes` and
`http.NewRequest` accepts the URL: if `client.Do` fails on the request with a transport
error `e` (a timeout included), `handler` returns status 500 with an empty body and the
error `e` itself, reports `e` with the request body, and has made exactly that one
attempt. -/
theorem transport_failure (lib : Lib) (cfg : Config) (request : APIGatewayProxyRequest) :
    (posts (handler lib cfg request).trace).length ≤ 1 ∧
    (∀ (client : Client) (req : Request) (res : Result Response),
      (client, req, res) ∈ posts (handler lib cfg request).trace →
      client = ⟨5⟩ ∧ req.Method = "POST" ∧ res = lib.clientDo client req) ∧
    (∀ (raw : MonzoTransaction) (p bytes : String) (e : Error),
      lib.jsonUnmarshal request.Body = .ok raw →
      raw.Data.AccountID = cfg.MonzoAccountID →
      ((raw.Data.Merchant.Name ≠ "" ∧ p = raw.Data.Merchant.Name) ∨
        (raw.Data.Merchant.Name = "" ∧ raw.Data.Counterparty.Name ≠ "" ∧
          p = raw.Data.Counterparty.Name) ∨
        (raw.Data.Merchant.Name = "" ∧ raw.Data.Counterparty.Name = "" ∧
          raw.Data.Description ≠ "" ∧ p = raw.Data.Description)) →
      lib.jsonMarshal ⟨⟨cfg.YnabAccountID, raw.Data.Created,
        Float64.mul raw.Data.Amount (Float64.ofNat 10), p, "cleared",
        raw.Data.TransactionID⟩⟩ = .ok bytes →
      lib.newRequestError "POST" (lib.sprintf cfg.YnabBaseURL cfg.YnabBudgetID) = none →
      lib.clientDo ⟨5⟩ ⟨"POST", lib.sprintf cfg.YnabBaseURL cfg.YnabBudgetID,
        [("Authorization", "Bearer " ++ cfg.YnabAPIKey),
          ("Content-Type", "application/json")], bytes⟩ = .error e →
      (handler lib cfg request).outcome =
          .returned ({ StatusCode := 500, Body := "" }, some e) ∧
        posts (handler lib cfg request).trace =
          [(⟨5⟩, ⟨"POST", lib.sprintf cfg.YnabBaseURL cfg.YnabBudgetID,
            [("Authorization", "Bearer " ++ cfg.YnabAPIKey),
              ("Content-Type", "application/json")], bytes⟩, .error e)] ∧
        captures (handler lib cfg request).trace =
          [(e, some [("request", request.Body)])]) ∧
    (∀ (raw : MonzoTransaction) (client : Client) (req : Request) (e : Error),
      lib.jsonUnmarshal request.Body = .ok raw →
      raw.Data.AccountID = cfg.MonzoAccountID →
      ¬ (raw.Data.Merchant.Name = "" ∧ raw.Data.Counterparty.Name = "" ∧
        raw.Data.Description = "") →
      Event.clientDo client req (.error e) ∈ (handler lib cfg request).trace →
      (handler lib cfg request).outcome = .returned ({ StatusCode := 500, Body := "" }, some e) ∧
        posts (handler lib cfg request).trace = [(client, req, .error e)]) := by
  refine ⟨?_, ?_, ?_, ?_⟩
  · simp only [handler]
    cases lib.jsonUnmarshal request.Body with
    | error err => simp [posts]
    | ok raw =>
      simp only []
      split
      · split
        · simp [posts]
        · cases lib.jsonMarshal _ with
          | error e => simp [posts]
          | ok bytes =>
            simp only [newRequest]
            cases lib.newRequestError _ _ with
            | some e => simp [posts]
            | none =>
              simp only []
              cases lib.clientDo _ _ <;> simp [posts]
      · simp [posts]
  · intro client req res
    simp only [handler]
    cases lib.jsonUnmarshal request.Body with
    | error err => simp [posts]
    | ok raw =>
      simp only []
      split
      · split
        · simp [posts]
        · cases lib.jsonMarshal _ with
          | error e => simp [posts]
          | ok bytes =>
            simp only [newRequest]
            cases lib.newRequestError _ _ with
            | some e => simp [posts]
            | none =>
              simp only [headerSet_authorization_contentType]
              cases hdo : lib.clientDo _ _ with
              | error e =>
                simp only [List.cons_append, List.nil_append, posts, List.mem_singleton,
                  Prod.mk.injEq]
                rintro ⟨h1, h2, h3⟩
                subst h1 h2 h3
                exact ⟨rfl, rfl, hdo.symm⟩
              | ok r =>
                simp only [List.cons_append, List.nil_append, posts, List.mem_singleton,
                  Prod.mk.injEq]
                rintro ⟨h1, h2, h3⟩
                subst h1 h2 h3
                exact ⟨rfl, rfl, hdo.symm⟩
      · simp [posts]
  · intro raw p bytes e hparse hacc hres hmar hnew hdo
    have hp : (if len raw.Data.Merchant.Name > 0 then some raw.Data.Merchant.Name
        else if len raw.Data.Counterparty.Name > 0 then some raw.Data.Counterparty.Name
        else if len raw.Data.Description > 0 then some raw.Data.Description else none)
        = some p := by
      rcases hres with ⟨h1, rfl⟩ | ⟨h1, h2, rfl⟩ | ⟨h1, h2, h3, rfl⟩
      · simp [len_pos_of_ne h1]
      · simp [len_not_pos_of_eq h1, len_pos_of_ne h2]
      · simp [len_not_pos_of_eq h1, len_not_pos_of_eq h2, len_pos_of_ne h3]
    simp [handler, hparse, hacc, hp, hmar, newRequest, hnew,
      headerSet_authorization_contentType, hdo, posts, captures, requestTags]
  · intro raw client req e hparse hacc hpayee hpost
    obtain ⟨p, hp⟩ := payee_chain_some hpayee
    simp only [handler, hparse, hacc, if_true, hp] at hpost ⊢
    revert hpost
    cases lib.jsonMarshal _ with
    | error e => simp
    | ok bytes =>
      simp only [newRequest]
      cases lib.newRequestError _ _ with
      | some e => simp
      | none =>
        simp only []
        cases lib.clientDo _ _ with
        | ok r => simp
        | error e2 =>
          simp only [List.cons_append, List.nil_append, List.mem_cons, List.mem_singleton,
            reduceCtorEq, false_or, or_false, Event.clientDo.injEq, Result.error.injEq,
            List.not_mem_nil]
          rintro ⟨h1, h2, h3⟩
          subst h1 h2 h3
          simp [posts]

set_option maxRecDepth 100000 in
/-- Witness for C8 on the end-to-end body: with a downstream that runs into the client
timeout `handler` returns status 500, an empty body and the timeout error after one
attempt; with a downstream that refuses the connection it returns the refusal error. -/
theorem transport_failure_witness :
    (handler (sampleLib downstreamTimeout) sampleConfig (sampleRequest coffeeBody)).outcome =
      .returned ({ StatusCode := 500, Body := "" },
        some ⟨"net/http: request canceled (Client.Timeout exceeded while awaiting headers)"⟩) ∧
    (posts (handler (sampleLib downstreamTimeout) sampleConfig
      (sampleRequest coffeeBody)).trace).length = 1 ∧
    (handler (sampleLib downstreamRefused) sampleConfig (sampleRequest coffeeBody)).outcome =
      .returned ({ StatusCode := 500, Body := "" },
        some ⟨"dial tcp 127.0.0.1:443: connect: connection refused"⟩) ∧
    captures (handler (sampleLib downstreamRefused) sampleConfig
      (sampleRequest coffeeBody)).trace =
      [(⟨"dial tcp 127.0.0.1:443: connect: connection refused"⟩,
        some [("request", coffeeBody)])] :=
  have h := (transport_failure (sampleLib downstreamTimeout) sampleConfig
      (sampleRequest coffeeBody)).2.2.1
      (sampleRaw "acc_123" (Float64.ofNat 150) "Coffee Shop" "" "tx_1" "") "Coffee Shop"
      "\x7b\"transaction\":\x7b\"account_id\":\"ynab_acc\",\"date\":\"2020-01-01T00:00:00Z\",\"amount\":1500,\"payee_name\":\"Coffee Shop\",\"cleared\":\"cleared\",\"import_id\":\"tx_1\"\x7d\x7d"
      ⟨"net/http: request canceled (Client.Timeout exceeded while awaiting headers)"⟩
      (by decide) (by decide) (by decide) (by decide) (by decide) (by decide)
  have h2 := (transport_failure (sampleLib downstreamRefused) sampleConfig
      (sampleRequest coffeeBody)).2.2.1
      (sampleRaw "acc_123" (Float64.ofNat 150) "Coffee Shop" "" "tx_1" "") "Coffee Shop"
      "\x7b\"transaction\":\x7b\"account_id\":\"ynab_acc\",\"date\":\"2020-01-01T00:00:00Z\",\"amount\":1500,\"payee_name\":\"Coffee Shop\",\"cleared\":\"cleared\",\"import_id\":\"tx_1\"\x7d\x7d"
      ⟨"dial tcp 127.0.0.1:443: connect: connection refused"⟩
      (by decide) (by decide) (by decide) (by decide) (by decide) (by decide)
  ⟨h.1, by rw [h.2.1]; rfl, h2.1, h2.2.2⟩

set_option maxRecDepth 100000 in
set_option exponentiation.threshold 2200 in
/-- C7 as stated fails: the sample body whose amount is the JSON number `1e308` parses,
matches the configured account and has a description, but its amount times ten is
`+Inf`, `json.Marshal` rejects the envelope, and `handler` returns status 500 without
issuing any request. -/
theorem request_shape_counterexample :
    ¬ (∀ (lib : Lib) (cfg : Config) (request : APIGatewayProxyRequest)
        (raw : MonzoTransaction),
        lib.jsonUnmarshal request.Body = .ok raw →
        raw.Data.AccountID = cfg.MonzoAccountID →
        ¬ (raw.Data.Merchant.Name = "" ∧ raw.Data.Counterparty.Name = "" ∧
          raw.Data.Description = "") →
        ∃ (client : Client) (req : Request) (res : Result Response),
          Event.clientDo client req res ∈ (handler lib cfg request).trace ∧
          req.Method = "POST" ∧
          req.URL = lib.sprintf cfg.YnabBaseURL cfg.YnabBudgetID ∧
          Header.Get req.Header "Authorization" = some ("Bearer " ++ cfg.YnabAPIKey) ∧
          Header.Get req.Header "Content-Type" = some "application/json" ∧
          ∃ t ∈ builtTransactions (handler lib cfg request).trace,
            lib.jsonMarshal ⟨t⟩ = .ok req.Body) := by
  intro h
  obtain ⟨client, req, res, hmem, _⟩ :=
    h (sampleLib downstreamOK) sampleConfig (sampleRequest hugeBody)
      (sampleRaw "acc_123" (Float64.ofNat (10 ^ 308)) "Coffee Shop" "" "tx_7" "")
      (by decide) (by decide) (by decide)
  have hposts : posts (handler (sampleLib downstreamOK) sampleConfig
      (sampleRequest hugeBody)).trace = [] := by decide
  have hm := mem_posts_of_mem hmem
  rw [hposts] at hm
  exact List.not_mem_nil _ hm

/-- C7, amended. For every parsed notification that passes the account check and the
payee check, `handler` builds one outbound transaction. If `json.Marshal` rejects its
envelope, no request is issued and `handler` returns status 500 with an empty body and
that error. If the envelope serializes and `http.NewRequest` accepts the URL, `handler`
issues exactly one request, under a 5 second client timeout, with method POST, URL equal
to the configured base-URL template formatted with the configured budget id, header
Authorization equal to "Bearer " followed by the configured API key, header Content-Type
equal to "application/json", and body equal to the serialization of the envelope. -/
theorem request_shape (lib : Lib) (cfg : Config) (request : APIGatewayProxyRequest)
    (raw : MonzoTransaction) (hparse : lib.jsonUnmarshal request.Body = .ok raw)
    (hacc : raw.Data.AccountID = cfg.MonzoAccountID)
    (hpayee : ¬ (raw.Data.Merchant.Name = "" ∧ raw.Data.Counterparty.Name = "" ∧
      raw.Data.Description = "")) :
    ∃ t : YNABTransaction, builtTransactions (handler lib cfg request).trace = [t] ∧
      (∀ e, lib.jsonMarshal ⟨t⟩ = .error e →
        posts (handler lib cfg request).trace = [] ∧
        (handler lib cfg request).outcome =
          .returned ({ StatusCode := 500, Body := "" }, some e)) ∧
      (∀ bytes, lib.jsonMarshal ⟨t⟩ = .ok bytes →
        lib.newRequestError "POST" (lib.sprintf cfg.YnabBaseURL cfg.YnabBudgetID) = none →
        ∃ (req : Request) (res : Result Response),
          posts (handler lib cfg request).trace = [(⟨5⟩, req, res)] ∧
          req.Method = "POST" ∧
          req.URL = lib.sprintf cfg.YnabBaseURL cfg.YnabBudgetID ∧
          req.Header = [("Authorization", "Bearer " ++ cfg.YnabAPIKey),
            ("Content-Type", "application/json")] ∧
          Header.Get req.Header "Authorization" = some ("Bearer " ++ cfg.YnabAPIKey) ∧
          Header.Get req.Header "Content-Type" = some "application/json" ∧
          req.Body = bytes) := by
  obtain ⟨p, hp⟩ := payee_chain_some hpayee
  have hk : ("Authorization" == "Content-Type") = false := by decide
  refine ⟨⟨cfg.YnabAccountID, raw.Data.Created, Float64.mul raw.Data.Amount (Float64.ofNat 10),
    p, "cleared", raw.Data.TransactionID⟩, ?_⟩
  simp only [handler, hparse, hacc, if_true, hp]
  cases lib.jsonMarshal _ with
  | error e =>
    refine ⟨by simp [builtTransactions], ?_, ?_⟩
    · intro e2 he2
      cases he2
      simp [posts]
    · intro bytes hb
      cases hb
  | ok bytes =>
    simp only [newRequest]
    cases lib.newRequestError _ _ with
    | some e =>
      refine ⟨by simp [builtTransactions], ?_, ?_⟩
      · intro e2 he2
        cases he2
      · intro b _ hnone
        cases hnone
    | none =>
      simp only []
      cases lib.clientDo _ _ with
      | error e =>
        refine ⟨by simp [builtTransactions], ?_, ?_⟩
        · intro e2 he2
          cases he2
        · intro b hb _
          cases hb
          exact ⟨⟨"POST", lib.sprintf cfg.YnabBaseURL cfg.YnabBudgetID,
            [("Authorization", "Bearer " ++ cfg.YnabAPIKey),
              ("Content-Type", "application/json")], bytes⟩, .error e,
            by simp [posts, headerSet_authorization_contentType], rfl, rfl, rfl,
            by simp [Header.Get], by simp [Header.Get, hk], rfl⟩
      | ok r =>
        refine ⟨by simp [builtTransactions], ?_, ?_⟩
        · intro e2 he2
          cases he2
        · intro b hb _
          cases hb
          exact ⟨⟨"POST", lib.sprintf cfg.YnabBaseURL cfg.YnabBudgetID,
            [("Authorization", "Bearer " ++ cfg.YnabAPIKey),
              ("Content-Type", "application/json")], bytes⟩, .ok r,
            by simp [posts, headerSet_authorization_contentType], rfl, rfl, rfl,
            by simp [Header.Get], by simp [Header.Get, hk], rfl⟩

set_option maxRecDepth 100000 in
/-- Witness for the amended C7 on the end-to-end body of the specification: one request
is issued, a POST to the budget URL with the bearer token, the JSON content type and the
serialized envelope as body. -/
theorem request_shape_witness :
    ∃ (req : Request) (res : Result Response),
      posts (handler (sampleLib downstreamOK) sampleConfig (sampleRequest coffeeBody)).trace =
        [(⟨5⟩, req, res)] ∧
      req.Method = "POST" ∧
      req.URL = "https://api.youneedabudget.com/v1/budgets/budget_1/transactions" ∧
      req.Header = [("Authorization", "Bearer key"), ("Content-Type", "application/json")] ∧
      req.Body = "\x7b\"transaction\":\x7b\"account_id\":\"ynab_acc\",\"date\":\"2020-01-01T00:00:00Z\",\"amount\":1500,\"payee_name\":\"Coffee Shop\",\"cleared\":\"cleared\",\"import_id\":\"tx_1\"\x7d\x7d" := by
  obtain ⟨t, ht, _, hok⟩ := request_shape (sampleLib downstreamOK) sampleConfig
    (sampleRequest coffeeBody)
    (sampleRaw "acc_123" (Float64.ofNat 150) "Coffee Shop" "" "tx_1" "")
    (by decide) (by decide) (by decide)
  have hb : builtTransactions (handler (sampleLib downstreamOK) sampleConfig
      (sampleRequest coffeeBody)).trace =
      [⟨"ynab_acc", "2020-01-01T00:00:00Z", Float64.ofNat 1500, "Coffee Shop", "cleared",
        "tx_1"⟩] := by decide
  rw [hb] at ht
  cases ht
  obtain ⟨req, res, h1, h2, h3, h4, _, _, h7⟩ := hok
    "\x7b\"transaction\":\x7b\"account_id\":\"ynab_acc\",\"date\":\"2020-01-01T00:00:00Z\",\"amount\":1500,\"payee_name\":\"Coffee Shop\",\"cleared\":\"cleared\",\"import_id\":\"tx_1\"\x7d\x7d"
    (by decide) (by decide)
  refine ⟨req, res, h1, h2, ?_, ?_, h7⟩
  · rw [h3]; decide
  · rw [h4]; decide

/-- The unchecked error of `http.NewRequest`: when it rejects the URL, the request is
nil and `handler` panics on `req.Header`, having issued no request. -/
theorem handler_nil_request (lib : Lib) (cfg : Config) (request : APIGatewayProxyRequest)
    (raw : MonzoTransaction) (bytes : String) (e : Error) (p : String)
    (hparse : lib.jsonUnmarshal request.Body = .ok raw)
    (hacc : raw.Data.AccountID = cfg.MonzoAccountID)
    (hp : (if len raw.Data.Merchant.Name > 0 then some raw.Data.Merchant.Name
      else if len raw.Data.Counterparty.Name > 0 then some raw.Data.Counterparty.Name
      else if len raw.Data.Description > 0 then some raw.Data.Description else none) = some p)
    (hmar : lib.jsonMarshal ⟨⟨cfg.YnabAccountID, raw.Data.Created,
      Float64.mul raw.Data.Amount (Float64.ofNat 10), p, "cleared",
      raw.Data.TransactionID⟩⟩ = .ok bytes)
    (hnew : lib.newRequestError "POST" (lib.sprintf cfg.YnabBaseURL cfg.YnabBudgetID) = some e) :
    (handler lib cfg request).outcome = .panicked .nilDereference ∧
      posts (handler lib cfg request).trace = [] := by
  simp [handler, hparse, hacc, hp, hmar, newRequest, hnew, posts]

set_option maxRecDepth 100000 in
/-- A configuration that `init` accepts and whose base URL `http.NewRequest` rejects: the
handler panics on the end-to-end body. -/
theorem handler_nil_request_sample :
    (init { sampleConfig with YnabBaseURL := "://%s" }).outcome = .returned () ∧
    (handler (sampleLib downstreamOK) { sampleConfig with YnabBaseURL := "://%s" }
      (sampleRequest coffeeBody)).outcome = .panicked .nilDereference := by
  decide

set_option maxRecDepth 100000 in
/-- A base URL without a formatting verb, which `init` accepts: `fmt.Sprintf` appends
the unused budget id as `%!(EXTRA string=budget_1)`, `http.NewRequest` rejects the
malformed escape, and the handler panics on the end-to-end body. -/
theorem handler_nil_request_base_url :
    (init { sampleConfig with YnabBaseURL := "https://api.example.com/x" }).outcome =
      .returned () ∧
    sampleSprintf "https://api.example.com/x" "budget_1" =
      "https://api.example.com/x%!(EXTRA string=budget_1)" ∧
    (handler (sampleLib downstreamOK)
      { sampleConfig with YnabBaseURL := "https://api.example.com/x" }
      (sampleRequest coffeeBody)).outcome = .panicked .nilDereference := by
  decide

/-- C9. `init` panics, right after reporting "Could not load environmental vars" to the
error tracker, if and only if at least one of the five configuration values is the empty
string, and the process then ends without `main` being entered; when all five are
non-empty `init` completes normally without a report; so `handler` only ever runs with
five non-empty configuration values. -/
theorem init_fail_fast (cfg : Config) :
    ((init cfg).outcome = .panicked (.err (errorsNew "Could not load environmental vars")) ↔
      (cfg.MonzoAccountID = "" ∨ cfg.YnabAccountID = "" ∨ cfg.YnabAPIKey = "" ∨
        cfg.YnabBaseURL = "" ∨ cfg.YnabBudgetID = "")) ∧
    ((∃ v, (init cfg).outcome = .panicked v) →
      (init cfg).trace.getLast? =
        some (.capture (errorsNew "Could not load environmental vars") none)) ∧
    ((cfg.MonzoAccountID = "" ∨ cfg.YnabAccountID = "" ∨ cfg.YnabAPIKey = "" ∨
        cfg.YnabBaseURL = "" ∨ cfg.YnabBudgetID = "") →
      ∀ lib requests, program lib cfg requests = ⟨(init cfg).trace,
        .panicked (.err (errorsNew "Could not load environmental vars"))⟩) ∧
    (cfg.complete → (init cfg).outcome = .returned () ∧ captures (init cfg).trace = []) ∧
    (∀ lib requests, handlerRuns (program lib cfg requests).trace ≠ [] → cfg.complete) := by
  have hor : (cfg.MonzoAccountID = "" ∨ cfg.YnabAccountID = "" ∨ cfg.YnabAPIKey = "" ∨
      cfg.YnabBaseURL = "" ∨ cfg.YnabBudgetID = "") ↔ ¬ cfg.complete := by
    unfold Config.complete
    tauto
  refine ⟨?_, ?_, ?_, ?_, ?_⟩
  · rw [hor]
    constructor
    · intro h hc
      rw [(init_of_complete cfg hc).1] at h
      cases h
    · intro h
      exact (init_of_incomplete cfg h).1
  · rintro ⟨v, hv⟩
    by_cases hc : cfg.complete
    · rw [(init_of_complete cfg hc).1] at hv
      cases hv
    · exact (init_of_incomplete cfg hc).2.2.1
  · intro h lib requests
    have hi := (init_of_incomplete cfg (hor.1 h)).1
    simp [program, hi]
  · intro hc
    exact ⟨(init_of_complete cfg hc).1, (init_of_complete cfg hc).2.1⟩
  · intro lib requests hruns
    by_contra hc
    have hi := init_of_incomplete cfg hc
    apply hruns
    simp [program, hi.1, hi.2.2.2]

set_option maxRecDepth 100000 in
/-- Witness for C9: the sample configuration with the API key left out makes `init` panic
and ends the process; the complete sample configuration lets `init` finish and the
handler run. -/
theorem init_fail_fast_witness :
    (init { sampleConfig with YnabAPIKey := "" }).outcome =
      .panicked (.err (errorsNew "Could not load environmental vars")) ∧
    (init { sampleConfig with YnabAPIKey := "" }).trace.getLast? =
      some (.capture (errorsNew "Could not load environmental vars") none) ∧
    program (sampleLib downstreamOK) { sampleConfig with YnabAPIKey := "" }
        [sampleRequest coffeeBody] =
      ⟨(init { sampleConfig with YnabAPIKey := "" }).trace,
        .panicked (.err (errorsNew "Could not load environmental vars"))⟩ ∧
    ((init sampleConfig).outcome = .returned () ∧ captures (init sampleConfig).trace = []) ∧
    sampleConfig.complete :=
  ⟨(init_fail_fast { sampleConfig with YnabAPIKey := "" }).1.2 (by decide),
   (init_fail_fast { sampleConfig with YnabAPIKey := "" }).2.1
      ⟨.err (errorsNew "Could not load environmental vars"), by decide⟩,
   (init_fail_fast { sampleConfig with YnabAPIKey := "" }).2.2.1 (by decide)
      (sampleLib downstreamOK) [sampleRequest coffeeBody],
   (init_fail_fast sampleConfig).2.2.2.1 (by decide),
   (init_fail_fast sampleConfig).2.2.2.2 (sampleLib downstreamOK) [sampleRequest coffeeBody]
      (by decide)⟩

/-- C10. For every request body that fails to parse as a notification, `handler` reports
the parse error to the error tracker with the raw request body as context and then
panics, returning no response and making no outbound POST; for every body that does
parse, `handler` does not take this path. -/
theorem malformed_input_fatal (lib : Lib) (cfg : Config) (request : APIGatewayProxyRequest) :
    (∀ err, lib.jsonUnmarshal request.Body = .error err →
      handler lib cfg request =
        ⟨[.log (.lambdaRequest request.RequestID), .log (.requestBody request.Body),
          .capture err (some [("request", request.Body)]), .log (.panicLine err.msg)],
          .panicked (.str err.msg)⟩ ∧
      captures (handler lib cfg request).trace = [(err, some [("request", request.Body)])] ∧
      (∀ r, (handler lib cfg request).outcome ≠ .returned r) ∧
      posts (handler lib cfg request).trace = []) ∧
    (∀ raw, lib.jsonUnmarshal request.Body = .ok raw →
      (∀ s, (handler lib cfg request).outcome ≠ .panicked (.str s)) ∧
      (∀ s, Event.log (.panicLine s) ∉ (handler lib cfg request).trace)) := by
  constructor
  · intro err herr
    simp [handler, herr, requestTags, captures, posts]
  · intro raw hparse
    simp only [handler, hparse]
    split
    · split
      · simp
      · cases lib.jsonMarshal _ with
        | error e => simp
        | ok bytes =>
          simp only [newRequest]
          cases lib.newRequestError _ _ with
          | some e => simp
          | none =>
            simp only []
            cases lib.clientDo _ _ <;> simp
    · simp

set_option maxRecDepth 100000 in
/-- Witness for C10: the truncated sample body makes `handler` report the decoding error
with the body and panic; the end-to-end body, which parses, does not end in that panic. -/
theorem malformed_input_fatal_witness :
    handler (sampleLib downstreamOK) sampleConfig (sampleRequest truncatedBody) =
      ⟨[.log (.lambdaRequest "req-1"), .log (.requestBody truncatedBody),
        .capture ⟨"unexpected end of JSON input"⟩ (some [("request", truncatedBody)]),
        .log (.panicLine "unexpected end of JSON input")],
        .panicked (.str "unexpected end of JSON input")⟩ ∧
    (∀ s, (handler (sampleLib downstreamOK) sampleConfig
      (sampleRequest coffeeBody)).outcome ≠ .panicked (.str s)) :=
  ⟨((malformed_input_fatal (sampleLib downstreamOK) sampleConfig
      (sampleRequest truncatedBody)).1 ⟨"unexpected end of JSON input"⟩ (by decide)).1,
   ((malformed_input_fatal (sampleLib downstreamOK) sampleConfig
      (sampleRequest coffeeBody)).2
      (sampleRaw "acc_123" (Float64.ofNat 150) "Coffee Shop" "" "tx_1" "") (by decide)).1⟩

end Monzo2YNAB
